import Mathlib

/-! AXI DMA / GPIO loop-back test harness: embedding and verified properties

Shallow embedding of `demo.c` (buffer initialisation, command-line parsing,
the four receive workers, the four transmit workers and `main`) and of
`gpioapp.c` (the sysfs helpers and `GpioInit`), together with the properties
established about them.

Conventions of the embedding

* `int` values are `Int` kept in the 32-bit two's-complement range by `wrapInt`;
  `unsigned int` values are `Nat` below `2 ^ 32`; `unsigned char` values are
  `Nat` below `256`.
* A static `unsigned char` array is a `List Nat`; `static ... [MAXLENGTH] = {0}`
  is `List.replicate MAXLENGTH 0`.
* Everything a function does to the outside world (console output, sysfs and
  driver calls, reads of the global buffers) is recorded as a list of events in
  program order.
* Functions that are not part of the sources (`getopt`, `parse_int`,
  `parse_double`, `MIB_TO_BYTE`, the driver library) enter as parameters.
-/

namespace Demo

/-! ## Constants and machine integers -/

/-- Macro `MAXLENGTH` of `demo.c`. -/
def MAXLENGTH : Nat := 10240

/-- Macro `TESTLENGTH` of `demo.c`. -/
def TESTLENGTH : Nat := 8192

/-- Value of `EINVAL` in `errno.h`. -/
def EINVAL : Int := 22

/-- Value of `ENODEV` in `errno.h`. -/
def ENODEV : Int := 19

/-- Reduction of an integer to the range of a 32-bit `int`. -/
def wrapInt (x : Int) : Int := (x + 2147483648) % 4294967296 - 2147483648

/-- Conversion of an `int` to `unsigned char`. -/
def toUChar (x : Int) : Nat := (x % 256).toNat

/-- A static `unsigned char` array. -/
abbrev Buffer := List Nat

/-- Value of the expression `b[i]`; an index outside the array yields 0 in the
embedding (the indices evaluated are recorded as events). -/
def byteAt (b : Buffer) (i : Nat) : Nat := b.getD i 0

/-- Initial content of `static unsigned char b[MAXLENGTH] = {0}`. -/
def zeroBuffer : Buffer := List.replicate MAXLENGTH 0

/-- The remaining `m` passes of a counting loop whose counter stands at `i`. -/
def forLoopFrom {σ : Type} (body : Nat → σ → σ) : Nat → Nat → σ → σ
  | 0, _, s => s
  | m + 1, i, s => forLoopFrom body m (i + 1) (body i s)

/-- Loop `for (i = 0; i < n; i++) body`, the counter running upwards from 0. -/
def forLoop {σ : Type} (n : Nat) (body : Nat → σ → σ) (s : σ) : σ :=
  forLoopFrom body n 0 s

/-! ## Global buffers and their initialisation in `main` -/

/-- The nine static buffers of `demo.c`. -/
structure Buffers where
  rbuffer0 : Buffer
  rbuffer1 : Buffer
  rbuffer2 : Buffer
  rbuffer3 : Buffer
  sbuffer0 : Buffer
  sbuffer1 : Buffer
  sbuffer2 : Buffer
  sbuffer3 : Buffer
  tbuffer : Buffer

/-- The buffers as the loader leaves them: all zero. -/
def staticBuffers : Buffers :=
  { rbuffer0 := zeroBuffer, rbuffer1 := zeroBuffer, rbuffer2 := zeroBuffer,
    rbuffer3 := zeroBuffer, sbuffer0 := zeroBuffer, sbuffer1 := zeroBuffer,
    sbuffer2 := zeroBuffer, sbuffer3 := zeroBuffer, tbuffer := zeroBuffer }

/-- Body `tbuffer[i]=i;` of the first loop of `main`. -/
def initTBody (i : Nat) (b : Buffers) : Buffers :=
  { b with tbuffer := b.tbuffer.set i (toUChar (i : Int)) }

/-- Body of the second loop of `main`: `sbufferK[i]=i;` for the four `K`. -/
def initSBody (i : Nat) (b : Buffers) : Buffers :=
  { b with
    sbuffer0 := b.sbuffer0.set i (toUChar (i : Int))
    sbuffer1 := b.sbuffer1.set i (toUChar (i : Int))
    sbuffer2 := b.sbuffer2.set i (toUChar (i : Int))
    sbuffer3 := b.sbuffer3.set i (toUChar (i : Int)) }

/-- The two initialisation loops at the start of `main`. -/
def initBuffers (b : Buffers) : Buffers :=
  forLoop TESTLENGTH initSBody (forLoop MAXLENGTH initTBody b)

/-! ## Observable events -/

/-- The two output streams used by the program. -/
inductive Stream where
  | stdout
  | stderr
  deriving DecidableEq, Repr

/-- The eight descriptors opened by `GpioInit` (globals of `gpioapp.c`). -/
inductive GpioFd where
  | gpio_fd
  | gpio_fd1
  | gpio_fd2
  | gpio_fd3
  | gpio_fd4
  | gpio_fd5
  | gpio_fd6
  | gpio_fd7
  deriving DecidableEq, Repr

/-- The four channel pairs of the driver library: `rapidio_jm_*`, `rapidio_dx_*`,
`rapidio_dd_*`, `rapidio_dj_*`. -/
inductive Prim where
  | jm
  | dx
  | dd
  | dj
  deriving DecidableEq, Repr

/-- One externally visible action, in the vocabulary of the sources. -/
inductive Event where
  /-- Call `fprintf(stream, fmt, args...)`; `printf` is the case `stdout`. -/
  | fprintf (stream : Stream) (fmt : String) (args : List Int)
  /-- Use of the logging macro `MSG(text)`. -/
  | msg (text : String)
  /-- Call `poll(fds, 1, -1)` on the given descriptor. -/
  | poll (fd : GpioFd)
  /-- Call `lseek(fd, 0, SEEK_SET)`. -/
  | lseek (fd : GpioFd)
  /-- Call `read(fd, buff, 10)`. -/
  | read (fd : GpioFd)
  /-- Call `rapidio_P_read(axidma_dev, &transD, rbufferB)`. -/
  | dmaRead (p : Prim) (desc : Fin 4) (buf : Fin 4)
  /-- Call `rapidio_P_send(axidma_dev, &transD, sbufferB)`. -/
  | dmaSend (p : Prim) (desc : Fin 4) (buf : Fin 4)
  /-- Evaluation of `rbufferK[i]`. -/
  | loadR (k : Fin 4) (i : Nat)
  /-- Evaluation of `tbuffer[i]`. -/
  | loadT (i : Nat)
  /-- Call `usleep(us)`. -/
  | usleep (us : Nat)
  /-- Call `GpioInit()`. -/
  | gpioInit
  /-- Call `axidma_config()`. -/
  | axidma_config
  /-- Call `axidma_init()`. -/
  | axidma_init
  /-- Call `axidma_get_dma_tx(axidma_dev)`. -/
  | axidma_get_dma_tx
  /-- Call `axidma_get_dma_rx(axidma_dev)`. -/
  | axidma_get_dma_rx
  /-- Call `axidma_malloc(axidma_dev, size)`. -/
  | axidma_malloc (size : Int)
  /-- Call `axidma_free(axidma_dev, NULL, size)`. -/
  | axidma_free (size : Int)
  /-- Call `axidma_destroy(axidma_dev)`. -/
  | axidma_destroy
  /-- Call `close(fd)`. -/
  | close (fd : Int)
  /-- Call `pthread_create` for receive worker `k`. -/
  | createRec (k : Fin 4)
  /-- Call `pthread_create` for transmit worker `k`. -/
  | createSend (k : Fin 4)
  /-- Call `pthread_detach`, in call order 0..7. -/
  | detach (n : Nat)
  /-- Call `exit(status)`. -/
  | exit (status : Int)
  deriving DecidableEq, Repr

/-! ## Receive workers `rapidio_taks_rec`, `rapidio_taks_rec1..3` -/

/-- What distinguishes the four receive workers in the source text. -/
structure RecConfig where
  /-- Descriptor polled and read. -/
  fd : GpioFd
  /-- Value stored into `transK.input_channel`. -/
  input_channel : Int
  /-- Value stored into `transK.output_channel`. -/
  output_channel : Int
  /-- Read primitive called. -/
  readPrim : Prim
  /-- Index of the `trans` descriptor passed to the primitive. -/
  desc : Fin 4
  /-- Index of the `rbuffer` passed to the primitive and compared. -/
  buf : Fin 4
  /-- Banner printed first. -/
  banner : String
  /-- Text printed when the length is too large. -/
  lenError : String
  /-- Format of the periodic line. -/
  periodic : String
  /-- Format of the per-byte mismatch line (commented out in worker 0). -/
  mismatch : Option String

/-- The configuration of receive worker `k`, read off the four function bodies. -/
def recConfig (k : Fin 4) : RecConfig :=
  match k with
  | 0 => { fd := .gpio_fd1, input_channel := 0, output_channel := 1, readPrim := .jm,
           desc := 0, buf := 0,
           banner := "AXI DMA0 File Transfer Info:\n",
           lenError := "gkhy_debug : DMA0 recv len error10240 \n",
           periodic := "\nDMA0 rec_len = 0x%x,cnt = %d\n",
           mismatch := none }
  | 1 => { fd := .gpio_fd3, input_channel := 2, output_channel := 3, readPrim := .dx,
           desc := 1, buf := 1,
           banner := "AXI DMA1 File Transfer Info:\n",
           lenError := "gkhy_debug : DMA1 recv len error10240 \n",
           periodic := "\nDMA1 rec_len = 0x%x,cnt = %d\n",
           mismatch := some "khy_debug :tbuffer[%d] : 0x%x,\trbuffer1[%d] : 0x%x\n" }
  | 2 => { fd := .gpio_fd5, input_channel := 4, output_channel := 5, readPrim := .dd,
           desc := 2, buf := 2,
           banner := "AXI DMA2 File Transfer Info:\n",
           lenError := "gkhy_debug : DMA2 recv len error10240 \n",
           periodic := "\nDMA2 rec_len = 0x%x,cnt = %d\n",
           mismatch := some "khy_debug :tbuffer[%d] : 0x%x,\trbuffer[%d] : 0x%x\n" }
  | 3 => { fd := .gpio_fd7, input_channel := 6, output_channel := 7, readPrim := .dj,
           desc := 3, buf := 3,
           banner := "AXI DMA3 File Transfer Info:\n",
           lenError := "gkhy_debug : DMA3 recv len error10240 \n",
           periodic := "\nDMA3 rec_len = 0x%x,cnt = %d\n",
           mismatch := some "khy_debug :tbuffer[%d] : 0x%x,\trbuffer[%d] : 0x%x\n" }

/-- State of the compare loop: the counter `err_num` and the events so far. -/
structure CmpState where
  err_num : Int
  trace : List Event
  deriving DecidableEq, Repr

/-- Body of the compare loop at index `i`:
`if (rbufferK[i] != tbuffer[i]) { printf(...); err_num++; }`. -/
def compareBody (k : Fin 4) (rb tb : Buffer) (i : Nat) (c : CmpState) : CmpState :=
  let r := byteAt rb i
  let t := byteAt tb i
  let loads := [Event.loadR (recConfig k).buf i, Event.loadT i]
  if r ≠ t then
    { err_num := wrapInt (c.err_num + 1)
      trace := c.trace ++ loads ++
        (match (recConfig k).mismatch with
         | some fmt => [Event.fprintf .stdout fmt [(i : Int), (t : Int), (i : Int), (r : Int)]]
         | none => []) }
  else
    { err_num := c.err_num, trace := c.trace ++ loads }

/-- The compare loop `for (i = 0; i < rec_len; i++) ...`. -/
def compareLoop (k : Fin 4) (rb tb : Buffer) (rec_len : Nat) (err_num : Int) : CmpState :=
  forLoop rec_len (compareBody k rb tb) { err_num := err_num, trace := [] }

/-- Variables of a receive worker that survive an iteration: the static `cnt`
and the local `err_num` (which the source never initialises). -/
structure RecState where
  cnt : Int
  err_num : Int
  deriving DecidableEq, Repr

/-- What the outside world supplies to one pass of the worker's `while (1)`. -/
structure RecInput where
  /-- Return value of `poll`. -/
  pollRet : Int
  /-- Whether `fds[0].revents & POLLPRI` is non-zero. -/
  pollpri : Bool
  /-- Return value of `lseek`. -/
  lseekRet : Int
  /-- Return value of `read`. -/
  readRet : Int
  /-- Value assigned to the `unsigned int rec_len` by the read primitive. -/
  rec_len : Nat
  /-- Content of the worker's `rbuffer` once the read primitive has returned. -/
  rbuffer : Buffer

/-- How one pass of the `while (1)` ended. -/
inductive RecPath where
  /-- No `POLLPRI`: the `else` branch. -/
  | nothing
  /-- The branch `rec_len > MAXLENGTH`, left by `continue`. -/
  | skipped
  /-- The pass ran to the end of the loop body. -/
  | compared
  deriving DecidableEq, Repr

/-- Events of `if (ret == -1) MSG(text);`. -/
def msgIfFailed (ret : Int) (text : String) : List Event :=
  if ret = -1 then [Event.msg text] else []

/-- One pass of the `while (1)` of receive worker `k`. Every path ends at the
closing brace of the loop, so the next action is the `poll` of the next pass. -/
def recIteration (k : Fin 4) (tb : Buffer) (st : RecState) (inp : RecInput) :
    RecState × List Event × RecPath :=
  let cfg := recConfig k
  let e0 := [Event.poll cfg.fd] ++ msgIfFailed inp.pollRet "poll\n"
  if inp.pollpri then
    let e1 := e0 ++ [Event.lseek cfg.fd] ++ msgIfFailed inp.lseekRet "lseek\n"
      ++ [Event.read cfg.fd] ++ msgIfFailed inp.readRet "read\n"
      ++ [Event.dmaRead cfg.readPrim cfg.desc cfg.buf]
    let cnt := wrapInt (st.cnt + 1)
    if inp.rec_len > MAXLENGTH then
      ({ cnt := cnt, err_num := st.err_num },
        e1 ++ [Event.fprintf .stdout cfg.lenError []], .skipped)
    else
      let e2 := e1 ++
        (if cnt.tmod 1000 = 0 then
          [Event.fprintf .stdout cfg.periodic [(inp.rec_len : Int), cnt]] else [])
      let c := compareLoop k inp.rbuffer tb inp.rec_len st.err_num
      let e3 := e2 ++ c.trace
      if c.err_num ≠ 0 then
        ({ cnt := cnt, err_num := 0 },
          e3 ++ [Event.fprintf .stdout "gkhy_debug:err_num = %d\n" [c.err_num]], .compared)
      else
        ({ cnt := cnt, err_num := c.err_num }, e3, .compared)
  else
    (st, e0 ++ [Event.fprintf .stdout "poll nothing--------------------------\n" []], .nothing)

/-- The statements of a receive worker before its loop. -/
def recPrologue (k : Fin 4) (readRet : Int) : List Event :=
  let cfg := recConfig k
  [Event.fprintf .stdout cfg.banner [],
   Event.fprintf .stdout "\tTransmit Channel: %d\n" [cfg.input_channel],
   Event.fprintf .stdout "\tReceive Channel: %d\n" [cfg.output_channel],
   Event.read cfg.fd] ++ msgIfFailed readRet "read\n"

/-- The loop of receive worker `k` over a finite sequence of inputs. -/
def recRun (k : Fin 4) (tb : Buffer) (st : RecState) : List RecInput → RecState × List Event
  | [] => (st, [])
  | inp :: rest =>
    let r := recIteration k tb st inp
    let r2 := recRun k tb r.1 rest
    (r2.1, r.2.1 ++ r2.2)

/-! ## Transmit workers `rapidio_taks_send0..3` -/

/-- What distinguishes the four transmit workers in the source text. -/
structure SendConfig where
  /-- Send primitive called. -/
  sendPrim : Prim
  /-- Index of the `trans` descriptor passed to the primitive. -/
  desc : Fin 4
  /-- Index of the `sbuffer` passed to the primitive. -/
  buf : Fin 4
  /-- Format of the periodic line. -/
  periodic : String

/-- The configuration of transmit worker `k`, read off the four function bodies. -/
def sendConfig (k : Fin 4) : SendConfig :=
  match k with
  | 0 => { sendPrim := .jm, desc := 0, buf := 0, periodic := "DMA0 send %d packet\n" }
  | 1 => { sendPrim := .dx, desc := 1, buf := 1, periodic := "DMA1 send %d packet\n" }
  | 2 => { sendPrim := .dd, desc := 2, buf := 2, periodic := "DMA2 send %d packet\n" }
  | 3 => { sendPrim := .dd, desc := 3, buf := 3, periodic := "DMA3 send %d packet\n" }

/-- One pass of the `while (1)` of transmit worker `k` entered with counter `cnt`:
the events, and the new counter, or `none` when the pass executes `return 0`. -/
def sendIteration (k : Fin 4) (cnt : Int) : List Event × Option Int :=
  let cfg := sendConfig k
  let e1 := [Event.usleep 4000, Event.dmaSend cfg.sendPrim cfg.desc cfg.buf]
  let cnt1 := wrapInt (cnt + 1)
  let e2 := e1 ++
    (if cnt1.tmod 1000 = 0 then [Event.fprintf .stdout cfg.periodic [cnt1]] else [])
  if cnt1 = 100000 then
    (e2 ++ [Event.fprintf .stdout "gkhy_debug:cnt = %d\n" [cnt1]], none)
  else
    (e2, some cnt1)

/-- At most `n` passes of the loop of transmit worker `k`, from counter `cnt`;
`acc` holds the events so far, latest first. The result is the trace in program
order, and the counter if the worker is still in its loop (`none` once it has
executed `return 0`). -/
def sendRunFrom (k : Fin 4) : Nat → Int → List Event → List Event × Option Int
  | 0, cnt, acc => (acc.reverse, some cnt)
  | m + 1, cnt, acc =>
    match sendIteration k cnt with
    | (e, none) => ((e.reverse ++ acc).reverse, none)
    | (e, some cnt1) => sendRunFrom k m cnt1 (e.reverse ++ acc)

/-- Transmit worker `k` from its start (`int cnt = 0;`), observed for at most
`n` passes of its loop. -/
def rapidio_taks_send (k : Fin 4) (n : Nat) : List Event × Option Int :=
  sendRunFrom k n 0 []

/-- Number of indices `i < n` at which the two buffers differ. -/
def mismatches (rb tb : Buffer) (n : Nat) : Nat :=
  ((List.range n).filter (fun i => decide (byteAt rb i ≠ byteAt tb i))).length

/-- Whether an event is an evaluation of a receive-buffer or pattern-buffer element. -/
def Event.isLoad : Event → Bool
  | .loadR _ _ => true
  | .loadT _ => true
  | _ => false

/-- Whether an event is a DMA transmission. -/
def Event.isSend : Event → Bool
  | .dmaSend _ _ _ => true
  | _ => false

/-- Number of transmissions in a trace. -/
def sendCount (es : List Event) : Nat := es.countP Event.isSend

/-! ## Command line: `print_usage` and `parse_args` -/

/-- The usage line printed by every call of `print_usage`. -/
def usageLine : String :=
  "Usage: axidma_transfer  " ++
  "[-t <DMA tx channel>] [-r <DMA rx channel>] [-s <Output file size>" ++
  " | -o <Output file size>].\n"

/-- Description of `-t` printed by `print_usage(true)`. -/
def usageT : String :=
  "\t-t <DMA tx channel>:\tThe device id of the DMA channel " ++
  "to use for transmitting the file. Default is to use the lowest " ++
  "numbered channel available.\n"

/-- Description of `-r` printed by `print_usage(true)`. -/
def usageR : String :=
  "\t-r <DMA rx channel>:\tThe device id of the DMA channel " ++
  "to use for receiving the data from the PL fabric. Default is to " ++
  "use the lowest numbered channel available.\n"

/-- Description of `-s` printed by `print_usage(true)`. -/
def usageS : String :=
  "\t-s <Output file size>:\tThe size of the output file in " ++
  "bytes. This is an integer value that must be at least the number " ++
  "of bytes received back. By default, this is the same as the size " ++
  "of the input file.\n"

/-- Description of `-o` printed by `print_usage(true)`. -/
def usageO : String :=
  "\t-o <Output file size>:\tThe size of the output file in " ++
  "Mibs. This is a floating-point value that must be at least the " ++
  "number of bytes received back. By default, this is the same " ++
  "the size of the input file.\n"

/-- Function `print_usage(help)`. -/
def print_usage (help : Bool) : List Event :=
  let stream := if help then Stream.stdout else Stream.stderr
  let first := [Event.fprintf stream usageLine []]
  if !help then first
  else first ++ [Event.fprintf stream usageT [], Event.fprintf stream usageR [],
                 Event.fprintf stream usageS [], Event.fprintf stream usageO []]

/-- One step of the option scan: the option character `getopt` returned with
the `optstring` `"t:r:s:o:h"`, together with what the helper called on its
`optarg` returned (`rc`) and stored (`parse_int` for `-t`, `-r`, `-s`;
`parse_double` followed by `MIB_TO_BYTE` and the conversion to `int` for `-o`).
`other` is every remaining return value of `getopt`, among them `?`. -/
inductive Opt where
  | t (rc : Int) (int_arg : Int)
  | r (rc : Int) (int_arg : Int)
  | s (rc : Int) (int_arg : Int)
  | o (rc : Int) (bytes : Int)
  | h
  | other
  deriving DecidableEq, Repr

/-- Local variables and out-parameters of `parse_args`, with its output so far. -/
structure ParseState where
  input_channel : Int
  output_channel : Int
  output_size : Int
  o_specified : Bool
  s_specified : Bool
  out : List Event
  deriving DecidableEq, Repr

/-- How `parse_args` stops: by `return rc` or inside by `exit(status)`. -/
inductive ParseEnd where
  | ret (rc : Int)
  | exit (status : Int)
  deriving DecidableEq, Repr

/-- The `while ((option = getopt(...)) != (char)-1) switch (option) ...` of
`parse_args`: the state when the scan ends, or the early stop. -/
def parseLoop : List Opt → ParseState → ParseState × Option ParseEnd
  | [], st => (st, none)
  | Opt.t rc v :: rest, st =>
    if rc < 0 then ({ st with out := st.out ++ print_usage false }, some (.ret rc))
    else parseLoop rest { st with input_channel := v }
  | Opt.r rc v :: rest, st =>
    if rc < 0 then ({ st with out := st.out ++ print_usage false }, some (.ret rc))
    else parseLoop rest { st with output_channel := v }
  | Opt.s rc v :: rest, st =>
    if rc < 0 then ({ st with out := st.out ++ print_usage false }, some (.ret rc))
    else parseLoop rest { st with output_size := v, s_specified := true }
  | Opt.o rc v :: rest, st =>
    if rc < 0 then ({ st with out := st.out ++ print_usage false }, some (.ret rc))
    else parseLoop rest { st with output_size := v, o_specified := true }
  | Opt.h :: _, st =>
    ({ st with out := st.out ++ print_usage true ++ [Event.exit 0] }, some (.exit 0))
  | Opt.other :: _, st =>
    ({ st with out := st.out ++ print_usage false }, some (.ret (-EINVAL)))

/-- The test `(*input_channel == -1) ^ (*output_channel == -1)`. -/
def channelCheck (st : ParseState) : Bool :=
  xor (decide (st.input_channel = -1)) (decide (st.output_channel = -1))

/-- The part of `parse_args` after the option scan. -/
def parseChecks (st : ParseState) (optind argc : Int) : ParseState × ParseEnd :=
  if channelCheck st then
    ({ st with out := st.out ++
        [Event.fprintf .stderr
          ("Error: Either both -t and -r must be specified, or " ++ "neither.\n") []]
        ++ print_usage false }, .ret (-EINVAL))
  else if st.s_specified && st.o_specified then
    ({ st with out := st.out ++
        [Event.fprintf .stderr "Error: Only one of -s and -o can be specified.\n" []]
        ++ print_usage false }, .ret (-EINVAL))
  else if optind < argc - 2 then
    ({ st with out := st.out ++
        [Event.fprintf .stderr "Error: Too many command line arguments.\n" []]
        ++ print_usage false }, .ret (-EINVAL))
  else (st, .ret 0)

/-- The defaults `parse_args` stores before the scan. -/
def parseInit : ParseState :=
  { input_channel := -1, output_channel := -1, output_size := -1,
    o_specified := false, s_specified := false, out := [] }

/-- Function `parse_args`: `opts` is the sequence of `getopt` results up to its
`-1`, `optind` the value of that variable when the scan ends. -/
def parse_args (opts : List Opt) (optind argc : Int) : ParseState × ParseEnd :=
  match parseLoop opts parseInit with
  | (st, some e) => (st, e)
  | (st, none) => parseChecks st optind argc

/-! ## Function `main` -/

/-- The fields of `struct dma_transfer` that `demo.c` touches; a buffer pointer
is an address, `0` for `NULL`. -/
structure DmaTransfer where
  input_channel : Int
  output_channel : Int
  input_size : Int
  output_size : Int
  output_fd : Int
  input_buf : Int
  output_buf : Int
  deriving DecidableEq, Repr

/-- A zero-filled descriptor (static storage, or after `memset`). -/
def DmaTransfer.zero : DmaTransfer :=
  { input_channel := 0, output_channel := 0, input_size := 0, output_size := 0,
    output_fd := 0, input_buf := 0, output_buf := 0 }

/-- The global descriptors `trans`, `trans0`, ..., `trans3`. -/
structure Globals where
  trans : DmaTransfer
  trans0 : DmaTransfer
  trans1 : DmaTransfer
  trans2 : DmaTransfer
  trans3 : DmaTransfer
  deriving DecidableEq, Repr

/-- The descriptors at program start. -/
def Globals.init : Globals :=
  { trans := .zero, trans0 := .zero, trans1 := .zero, trans2 := .zero, trans3 := .zero }

/-- Answers of the driver library and the operating system to `main`. -/
structure Driver where
  /-- Whether `axidma_init` returned a non-null device. -/
  init_ok : Bool
  /-- The `array_t` returned by `axidma_get_dma_tx`: `data`, with `len` its length. -/
  tx_chans : List Int
  /-- The `array_t` returned by `axidma_get_dma_rx`. -/
  rx_chans : List Int
  /-- Address returned by the `n`-th call of `axidma_malloc` (`0` is `NULL`). -/
  malloc : Nat → Int
  /-- Return value of the `n`-th call of `pthread_create`. -/
  pthread_err : Nat → Int
  /-- Return value of `close`. -/
  close_ret : Int

/-- How `main` ends. -/
inductive MainEnd where
  /-- Statement `return rc`. -/
  | returned (rc : Int)
  /-- Call `exit(status)` inside `parse_args`. -/
  | exited (status : Int)
  /-- Failed `assert`. -/
  | aborted
  /-- The final `while (1) sleep(1);`. -/
  | idle
  deriving DecidableEq, Repr

/-- Result of `main`: its actions in order, the descriptors, and its end. -/
structure MainResult where
  trace : List Event
  globals : Globals
  ending : MainEnd
  deriving DecidableEq, Repr

/-- The labels `close_output:` and `ret:` of `main`. -/
def mainCloseOutput (env : Driver) (g : Globals) (tr : List Event) (rc : Int) : MainResult :=
  let tr1 := tr ++ [Event.close g.trans.output_fd]
  if env.close_ret = 0 then { trace := tr1, globals := g, ending := .returned rc }
  else { trace := tr1, globals := g, ending := .aborted }

/-- The label `destroy_axidma:` of `main` and what follows it. -/
def mainDestroy (env : Driver) (g : Globals) (tr : List Event) (rc : Int) : MainResult :=
  mainCloseOutput env g (tr ++ [Event.axidma_destroy]) rc

/-- The two allocations of one descriptor: `output_buf` is the `n`-th
allocation, `input_buf` the next one; a `NULL` result is passed to `axidma_free`
and kept. -/
def allocPair (env : Driver) (n : Nat) (d : DmaTransfer) : DmaTransfer × List Event :=
  let ob := env.malloc n
  let e1 := [Event.axidma_malloc d.output_size] ++
    (if ob = 0 then [Event.axidma_free d.output_size] else [])
  let ib := env.malloc (n + 1)
  let e2 := [Event.axidma_malloc d.input_size] ++
    (if ib = 0 then
      [Event.fprintf .stderr "Failed to allocate the input buffer.\n" [],
       Event.axidma_free d.input_size] else [])
  ({ d with output_buf := ob, input_buf := ib }, e1 ++ e2)

/-- The eight `pthread_create` calls of `main` with the text printed on failure. -/
def threadTable : List (Event × String) :=
  [(.createRec 0, "pthreadrx_create fail\n"),
   (.createRec 1, "pthreadrx_create1 fail\n"),
   (.createRec 2, "pthreadrx_create2 fail\n"),
   (.createRec 3, "pthreadrx_create3fail\n"),
   (.createSend 0, "pthreadtx_create fail\n"),
   (.createSend 1, "pthreadtx_create fail\n"),
   (.createSend 2, "pthreadtx_create fail\n"),
   (.createSend 3, "pthreadtx_create fail\n")]

/-- The chain of `pthread_create` calls from the `n`-th on: the events, and
whether all succeeded (a failure prints and makes `main` return `-1`). -/
def createAll (err : Nat → Int) : Nat → List (Event × String) → List Event × Bool
  | _, [] => ([], true)
  | n, (e, m) :: rest =>
    if err n ≠ 0 then ([e, Event.fprintf .stdout m []], false)
    else
      let r := createAll err (n + 1) rest
      (e :: r.1, r.2)

/-- The part of `main` after a successful `parse_args`. -/
def mainAfterParse (env : Driver) (g : Globals) (tr : List Event) : MainResult :=
  let tr1 := tr ++ [Event.axidma_init]
  if !env.init_ok then
    mainCloseOutput env g
      (tr1 ++ [Event.fprintf .stderr "Error: Failed to initialize the AXI DMA device.\n" []]) 1
  else
    let tr2 := tr1 ++ [Event.fprintf .stdout "Succeed to initialize the AXI DMA device.\n" [],
                       Event.axidma_get_dma_tx]
    if (env.tx_chans.length : Int) < 1 then
      mainDestroy env g
        (tr2 ++ [Event.fprintf .stderr "Error: No transmit channels were found.\n" []]) (-ENODEV)
    else
      let tr3 := tr2 ++ [Event.axidma_get_dma_rx]
      if (env.rx_chans.length : Int) < 1 then
        mainDestroy env g
          (tr3 ++ [Event.fprintf .stderr "Error: No receive channels were found.\n" []]) (-ENODEV)
      else
        let trans :=
          if g.trans.input_channel = -1 ∧ g.trans.output_channel = -1 then
            { g.trans with input_channel := env.tx_chans.getD 0 0,
                           output_channel := env.rx_chans.getD 0 0 }
          else g.trans
        let sized (d : DmaTransfer) : DmaTransfer :=
          { d with output_size := (MAXLENGTH : Int), input_size := (TESTLENGTH : Int) }
        let a0 := allocPair env 0 (sized g.trans0)
        let a1 := allocPair env 2 (sized g.trans1)
        let a2 := allocPair env 4 (sized g.trans2)
        let a3 := allocPair env 6 (sized g.trans3)
        let g1 : Globals :=
          { trans := trans, trans0 := a0.1, trans1 := a1.1, trans2 := a2.1, trans3 := a3.1 }
        let tr4 := tr3 ++ a0.2 ++ a1.2 ++ a2.2 ++ a3.2 ++
          [Event.fprintf .stdout "DMA info......\n" []]
        let c := createAll env.pthread_err 0 threadTable
        if !c.2 then { trace := tr4 ++ c.1, globals := g1, ending := .returned (-1) }
        else
          { trace := tr4 ++ c.1 ++ (List.range 8).map Event.detach
            globals := g1, ending := .idle }

/-- Function `main` on the command line described by `opts`, `optind`, `argc`
(see `parse_args`), with the answers `env` of its environment. -/
def main (env : Driver) (opts : List Opt) (optind argc : Int) : MainResult :=
  let tr0 := [Event.gpioInit, Event.axidma_config]
  let p := parse_args opts optind argc
  let g : Globals :=
    { Globals.init with
      trans := { DmaTransfer.zero with
                 input_channel := p.1.input_channel
                 output_channel := p.1.output_channel
                 output_size := p.1.output_size } }
  match p.2 with
  | .exit status => { trace := tr0 ++ p.1.out, globals := g, ending := .exited status }
  | .ret rc =>
    if rc < 0 then { trace := tr0 ++ p.1.out, globals := g, ending := .returned 1 }
    else mainAfterParse env g (tr0 ++ p.1.out)

/-! ## GPIO set-up: `gpioapp.c` -/

/-- The sysfs files `gpioapp.c` opens: `/sys/class/gpio/export`,
`/sys/class/gpio/unexport` and, for a pin, `/sys/class/gpio/gpio<pin>/direction`,
`.../edge`, `.../value`. -/
inductive SysFile where
  | exportFile
  | unexportFile
  | direction (pin : Int)
  | edge (pin : Int)
  | value (pin : Int)
  deriving DecidableEq, Repr

/-- The access modes passed to `open`. -/
inductive OpenMode where
  | O_WRONLY
  | O_RDONLY
  deriving DecidableEq, Repr

/-- The bytes handed to `write`: the text `snprintf(buffer, 64, "%d", n)`
produced, in its full length, or an explicit byte sequence. -/
inductive SysData where
  | decimal (n : Int)
  | bytes (cs : List Char)
  deriving DecidableEq, Repr

/-- One action of `gpioapp.c` on the outside world. -/
inductive SysEvent where
  /-- Call `open(file, mode)`. -/
  | open (file : SysFile) (mode : OpenMode)
  /-- Call `write(fd, data, length of data)` on the descriptor of `file`. -/
  | write (file : SysFile) (data : SysData)
  /-- Call `close(fd)` on the descriptor of `file`. -/
  | close (file : SysFile)
  /-- Use of the logging macro `MSG(text)`. -/
  | msg (text : String)
  /-- Call `printf(fmt, ...)` with an optional `%s` argument and the integers. -/
  | printf (fmt : String) (text : Option SysData) (nums : List Int)
  deriving DecidableEq, Repr

/-- The five kinds of sysfs operation `GpioInit` performs on a pin. -/
inductive GpioOp where
  | opUnexport
  | opExport
  | opDirection
  | opEdge
  | opValue
  deriving DecidableEq, Repr

/-- Outcome assignment of the operating system: for each kind of operation and
pin, what `open` returns (negative on failure) and what `write` returns
(negative on failure). -/
structure SysEnv where
  openFd : GpioOp → Int → Int
  writeRet : GpioOp → Int → Int

/-- The byte `\0`. -/
def NUL : Char := Char.ofNat 0

/-- Function `strlen`: the number of bytes before the first `\0`. -/
def strlen : List Char → Nat
  | [] => 0
  | c :: rest => if c = NUL then 0 else strlen rest + 1

/-- The value `snprintf(buffer, 64, "%d", n)` returns: the length of the text. -/
def decimalLen (n : Int) : Int := ((toString n).length : Int)

/-- Function `gpio_export(pin)`: return value and actions. -/
def gpio_export (env : SysEnv) (pin : Int) : Int × List SysEvent :=
  let e1 := [SysEvent.open .exportFile .O_WRONLY]
  if env.openFd .opExport pin < 0 then
    (-1, e1 ++ [SysEvent.msg "Failed to open export for writing!\n"])
  else
    let e2 := e1 ++ [SysEvent.printf "%s,%d,%d\n" (some (.decimal pin)) [64, decimalLen pin],
                     SysEvent.write .exportFile (.decimal pin)]
    if env.writeRet .opExport pin < 0 then
      (-1, e2 ++ [SysEvent.msg "Failed to export gpio!"])
    else (0, e2 ++ [SysEvent.close .exportFile])

/-- Function `gpio_unexport(pin)`: return value and actions. -/
def gpio_unexport (env : SysEnv) (pin : Int) : Int × List SysEvent :=
  let e1 := [SysEvent.open .unexportFile .O_WRONLY]
  if env.openFd .opUnexport pin < 0 then
    (-1, e1 ++ [SysEvent.msg "Failed to open unexport for writing!\n"])
  else
    let e2 := e1 ++ [SysEvent.write .unexportFile (.decimal pin)]
    if env.writeRet .opUnexport pin < 0 then
      (-1, e2 ++ [SysEvent.msg "Failed to unexport gpio!"])
    else (0, e2 ++ [SysEvent.close .unexportFile])

/-- The array `dir_str[] = "in\0out"` of `gpio_direction`, terminator included. -/
def directionTable : List Char := "in\x00out".toList ++ [NUL]

/-- The bytes `gpio_direction` writes: `&dir_str[dir == 0 ? 0 : 3]`, of length
`dir == 0 ? 2 : 3`. -/
def directionBytes (dir : Int) : List Char :=
  (directionTable.drop (if dir = 0 then 0 else 3)).take (if dir = 0 then 2 else 3)

/-- Function `gpio_direction(pin, dir)`: return value and actions. -/
def gpio_direction (env : SysEnv) (pin dir : Int) : Int × List SysEvent :=
  let e1 := [SysEvent.open (.direction pin) .O_WRONLY]
  if env.openFd .opDirection pin < 0 then
    (-1, e1 ++ [SysEvent.msg "Failed to open gpio direction for writing!\n"])
  else
    let e2 := e1 ++ [SysEvent.write (.direction pin) (.bytes (directionBytes dir))]
    if env.writeRet .opDirection pin < 0 then
      (-1, e2 ++ [SysEvent.msg "Failed to set direction!\n"])
    else (0, e2 ++ [SysEvent.close (.direction pin)])

/-- The array `dir_str[] = "none\0rising\0falling\0both"` of `gpio_edge`,
terminator included. -/
def edgeTable : List Char := "none\x00rising\x00falling\x00both".toList ++ [NUL]

/-- The `switch (edge)` of `gpio_edge`: the offset `ptr` into the table. -/
def edgeOffset (edge : Int) : Nat :=
  if edge = 0 then 0
  else if edge = 1 then 5
  else if edge = 2 then 12
  else if edge = 3 then 20
  else 0

/-- The bytes `gpio_edge` writes: `&dir_str[ptr]`, of length `strlen(&dir_str[ptr])`. -/
def edgeBytes (edge : Int) : List Char :=
  (edgeTable.drop (edgeOffset edge)).take (strlen (edgeTable.drop (edgeOffset edge)))

/-- Function `gpio_edge(pin, edge)`: return value and actions. -/
def gpio_edge (env : SysEnv) (pin edge : Int) : Int × List SysEvent :=
  let e1 := [SysEvent.open (.edge pin) .O_WRONLY]
  if env.openFd .opEdge pin < 0 then
    (-1, e1 ++ [SysEvent.msg "Failed to open gpio edge for writing!\n"])
  else
    let e2 := e1 ++ [SysEvent.write (.edge pin) (.bytes (edgeBytes edge))]
    if env.writeRet .opEdge pin < 0 then
      (-1, e2 ++ [SysEvent.msg "Failed to set edge!\n"])
    else (0, e2 ++ [SysEvent.close (.edge pin)])

/-- The pins of the eight `gpio_unexport` calls that open `GpioInit`. -/
def gpioPins : List Int := [960, 961, 962, 963, 964, 965, 966, 967]

/-- The eight `gpio_unexport` calls; their return values are discarded. -/
def unexportAll (env : SysEnv) : List Int → List SysEvent
  | [] => []
  | pin :: rest => (gpio_unexport env pin).2 ++ unexportAll env rest

/-- One of the eight blocks of `GpioInit`: the pin, the global that receives
the descriptor, the text logged when `open` fails and the text printed when it
succeeds. -/
structure GpioStage where
  pin : Int
  fd : GpioFd
  failText : String
  okText : String
  deriving DecidableEq, Repr

/-- The eight blocks of `GpioInit`, in source order. -/
def gpioStages : List GpioStage :=
  [⟨960, .gpio_fd, "Failed to open value2!\n", "success open960\r\n"⟩,
   ⟨961, .gpio_fd1, "Failed to open value3!\n", "success open961\r\n"⟩,
   ⟨962, .gpio_fd2, "Failed to open value4!\n", "success open962\r\n"⟩,
   ⟨963, .gpio_fd3, "Failed to open value5!\n", "success open963\r\n"⟩,
   ⟨964, .gpio_fd4, "Failed to open value6!\n", "success open964\r\n"⟩,
   ⟨965, .gpio_fd5, "Failed to open value7!\n", "success open965\r\n"⟩,
   ⟨966, .gpio_fd6, "Failed to open value6!\n", "success open966\r\n"⟩,
   ⟨967, .gpio_fd7, "Failed to open value7!\n", "success open967\r\n"⟩]

/-- The actions of one block up to and including the `open` of the value file:
`gpio_export(pin); gpio_direction(pin, 0); gpio_edge(pin, 1);` (return values
discarded) and `open(".../value", O_RDONLY)`. -/
def stageEvents (env : SysEnv) (pin : Int) : List SysEvent :=
  (gpio_export env pin).2 ++ (gpio_direction env pin 0).2 ++ (gpio_edge env pin 1).2 ++
    [SysEvent.open (.value pin) .O_RDONLY]

/-- The blocks of `GpioInit` from a given one on. The result is the value
returned (`none` when control reaches the closing brace of the function, which
has no `return` statement there), the eight descriptor globals, and the actions. -/
def initStages (env : SysEnv) :
    List GpioStage → (GpioFd → Int) → List SysEvent → Option Int × (GpioFd → Int) × List SysEvent
  | [], fds, tr => (none, fds, tr)
  | st :: rest, fds, tr =>
    let tr1 := tr ++ stageEvents env st.pin
    let fd := env.openFd .opValue st.pin
    let fds1 := Function.update fds st.fd fd
    if fd < 0 then (some (-1), fds1, tr1 ++ [SysEvent.msg st.failText])
    else initStages env rest fds1 (tr1 ++ [SysEvent.printf st.okText none []])

/-- Function `GpioInit()`; the descriptor globals start at 0. -/
def GpioInit (env : SysEnv) : Option Int × (GpioFd → Int) × List SysEvent :=
  initStages env gpioStages (fun _ => 0) (unexportAll env gpioPins)

/-! ## The descriptors the workers use -/

/-- The assignments `transK.input_channel = ...; transK.output_channel = ...;`
at the start of receive worker `k`. -/
def setChannels (k : Fin 4) (d : DmaTransfer) : DmaTransfer :=
  { d with input_channel := (recConfig k).input_channel,
           output_channel := (recConfig k).output_channel }

/-- Effect of the start of receive worker `k` on the global descriptors: worker
`k` writes `trans0`, `trans1`, `trans2`, `trans3` for `k` = 0, 1, 2, 3. -/
def recStart (k : Fin 4) (g : Globals) : Globals :=
  match k with
  | 0 => { g with trans0 := setChannels 0 g.trans0 }
  | 1 => { g with trans1 := setChannels 1 g.trans1 }
  | 2 => { g with trans2 := setChannels 2 g.trans2 }
  | 3 => { g with trans3 := setChannels 3 g.trans3 }

/-- The global descriptors once the four receive workers have started (they
write disjoint descriptors, so the order does not matter). -/
def workersStarted (g : Globals) : Globals :=
  recStart 3 (recStart 2 (recStart 1 (recStart 0 g)))

/-- The descriptor `&transK` that the workers of channel `k` pass to the read and
send primitives: index `k` in `Event.dmaRead` and `Event.dmaSend`. The
descriptor `trans` filled by `parse_args` has no index. -/
def Globals.worker (g : Globals) (k : Fin 4) : DmaTransfer :=
  match k with
  | 0 => g.trans0
  | 1 => g.trans1
  | 2 => g.trans2
  | 3 => g.trans3

/-- The send buffer `sbufferK` that transmit worker `k` passes to its primitive. -/
def Buffers.sendBuffer (b : Buffers) (k : Fin 4) : Buffer :=
  match k with
  | 0 => b.sbuffer0
  | 1 => b.sbuffer1
  | 2 => b.sbuffer2
  | 3 => b.sbuffer3

/-! ## Vocabulary of the statements -/

/-- Whether the scan step is the option `-h`. -/
def Opt.isH : Opt → Bool
  | .h => true
  | _ => false

/-- Whether the scan step is the option `-s`. -/
def Opt.isS : Opt → Bool
  | .s _ _ => true
  | _ => false

/-- Whether the scan step is the option `-o`. -/
def Opt.isO : Opt → Bool
  | .o _ _ => true
  | _ => false

/-- Whether the helper called on the option argument did not fail (`rc < 0` is
the failure test of `parse_args`); steps without an argument count as parsed. -/
def Opt.parsed : Opt → Bool
  | .t rc _ => decide (¬ rc < 0)
  | .r rc _ => decide (¬ rc < 0)
  | .s rc _ => decide (¬ rc < 0)
  | .o rc _ => decide (¬ rc < 0)
  | .h => true
  | .other => true

/-- Whether the scan step is one of `-t`, `-r`, `-s`, `-o` with an argument
that parsed, so that the scan goes on to the next option. -/
def Opt.accepted : Opt → Bool
  | .t rc _ => decide (¬ rc < 0)
  | .r rc _ => decide (¬ rc < 0)
  | .s rc _ => decide (¬ rc < 0)
  | .o rc _ => decide (¬ rc < 0)
  | .h => false
  | .other => false

/-- Whether an event is an action on the GPIO or DMA hardware: `GpioInit`
(its sysfs writes and opens), or a call into the DMA driver library. -/
def Event.isHardware : Event → Bool
  | .gpioInit => true
  | .axidma_config => true
  | .axidma_init => true
  | .axidma_get_dma_tx => true
  | .axidma_get_dma_rx => true
  | .axidma_malloc _ => true
  | .axidma_free _ => true
  | .axidma_destroy => true
  | .dmaRead _ _ _ => true
  | .dmaSend _ _ _ => true
  | _ => false

/-- The five texts `print_usage` can print. -/
def usageTexts : List String := [usageLine, usageT, usageR, usageS, usageO]

/-- The three diagnostics of the checks that follow the option scan. -/
def errorTexts : List String :=
  ["Error: Either both -t and -r must be specified, or " ++ "neither.\n",
   "Error: Only one of -s and -o can be specified.\n",
   "Error: Too many command line arguments.\n"]

/-- Whether an event prints one of the usage texts. -/
def Event.isUsage : Event → Bool
  | .fprintf _ fmt _ => decide (fmt ∈ usageTexts)
  | _ => false

/-- Whether an event writes to the given stream. -/
def Event.writesTo (st : Stream) : Event → Bool
  | .fprintf s _ _ => decide (s = st)
  | _ => false

/-- A pass of a receive worker in which the read primitive reports 10241 bytes. -/
def oversizeInput : RecInput :=
  { pollRet := 1, pollpri := true, lseekRet := 0, readRet := 2, rec_len := 10241,
    rbuffer := zeroBuffer }

/-- A pass of a receive worker in which the read primitive reports 4 bytes. -/
def shortInput : RecInput :=
  { pollRet := 1, pollpri := true, lseekRet := 0, readRet := 2, rec_len := 4,
    rbuffer := [0, 9, 2, 7] }

/-- A driver whose channel lists are in ascending order; every other call
succeeds. -/
def sortedDriver : Driver :=
  { init_ok := true, tx_chans := [0, 2, 4, 6], rx_chans := [1, 3, 5, 7],
    malloc := fun n => 4096 * ((n : Int) + 1), pthread_err := fun _ => 0, close_ret := 0 }

/-- An outcome assignment in which every operation succeeds; the value files
get the descriptors 10..17. -/
def okEnv : SysEnv :=
  { openFd := fun op pin => if op = GpioOp.opValue then pin - 950 else 3,
    writeRet := fun _ _ => 1 }

/-- An outcome assignment in which opening the edge file of pin 960 fails and
every other operation succeeds. -/
def edgeFailEnv : SysEnv :=
  { openFd := fun op pin => if op = GpioOp.opEdge ∧ pin = 960 then -1 else 3,
    writeRet := fun _ _ => 1 }

/-- Whether an action is a `write`. -/
def SysEvent.isWrite : SysEvent → Bool
  | .write _ _ => true
  | _ => false

/-- The five sysfs actions the set-up of a pin consists of: the pin number
written to the unexport and export files, `in` written to its direction file,
`rising` written to its edge file, and its value file opened read-only. -/
def pinSetup (pin : Int) : List SysEvent :=
  [SysEvent.write .unexportFile (.decimal pin),
   SysEvent.write .exportFile (.decimal pin),
   SysEvent.write (.direction pin) (.bytes "in".toList),
   SysEvent.write (.edge pin) (.bytes "rising".toList),
   SysEvent.open (.value pin) .O_RDONLY]

/-- The index of the buffer element an event evaluates, if it is such an event. -/
def Event.loadIndex? : Event → Option Nat
  | .loadR _ i => some i
  | .loadT i => some i
  | _ => none

/-- A pass of a receive worker in which the read primitive reports 4 bytes and
the receive buffer holds `0, 1, 2, 3`. -/
def matchingInput : RecInput :=
  { pollRet := 1, pollpri := true, lseekRet := 0, readRet := 2, rec_len := 4,
    rbuffer := [0, 1, 2, 3] }

/-- Whether an event prints the periodic `rec_len`/`cnt` line of receive worker `k`. -/
def Event.isPeriodic (k : Fin 4) : Event → Bool
  | .fprintf _ fmt _ => decide (fmt = (recConfig k).periodic)
  | _ => false

/-- Whether a trace contains the periodic line of receive worker `k`. -/
def logsPeriodic (k : Fin 4) (es : List Event) : Bool := es.any (Event.isPeriodic k)

/-- Number of passes in which the read primitive was called (`POLLPRI` seen). -/
def readCount (ins : List RecInput) : Nat := ins.countP (fun inp => inp.pollpri)

/-- Number of passes that were not skipped: the read primitive was called and
reported at most `MAXLENGTH` bytes. -/
def comparedCount (ins : List RecInput) : Nat :=
  ins.countP (fun inp => inp.pollpri && decide (inp.rec_len ≤ MAXLENGTH))

/-- The index of the descriptor an event passes to a read or send primitive. -/
def Event.descriptor? : Event → Option (Fin 4)
  | .dmaRead _ d _ => some d
  | .dmaSend _ d _ => some d
  | _ => none

/-- Whether an event prints the line `gkhy_debug:cnt = ...` that a transmit
worker logs before it returns. -/
def Event.isCountLog : Event → Bool
  | .fprintf _ fmt _ => decide (fmt = "gkhy_debug:cnt = %d\n")
  | _ => false

/-- Whether an action of `gpioapp.c` is a use of the logging macro `MSG`. -/
def SysEvent.isMsg : SysEvent → Bool
  | .msg _ => true
  | _ => false

/-! # Properties -/

/-! ## Loops -/

theorem forLoopFrom_succ {σ : Type} (body : Nat → σ → σ) (m i : Nat) (s : σ) :
    forLoopFrom body (m + 1) i s = body (i + m) (forLoopFrom body m i s) := by
  induction m generalizing i s with
  | zero => simp [forLoopFrom]
  | succ m ih =>
    have h := ih (i + 1) (body i s)
    have e : i + 1 + m = i + (m + 1) := by omega
    rw [e] at h
    rw [forLoopFrom, h]
    rfl

theorem forLoop_zero {σ : Type} (body : Nat → σ → σ) (s : σ) : forLoop 0 body s = s := rfl

theorem forLoop_succ {σ : Type} (body : Nat → σ → σ) (n : Nat) (s : σ) :
    forLoop (n + 1) body s = body n (forLoop n body s) := by
  unfold forLoop
  rw [forLoopFrom_succ]
  simp

theorem toUChar_natCast (i : Nat) : toUChar (i : Int) = i % 256 := by
  unfold toUChar
  omega

theorem wrapInt_of_range (x : Int) (h1 : -2147483648 ≤ x) (h2 : x < 2147483648) :
    wrapInt x = x := by
  unfold wrapInt
  omega

/-! ## Buffer initialisation -/

theorem initT_tbuffer (n : Nat) (b : Buffers) (i : Nat) :
    (forLoop n initTBody b).tbuffer[i]? =
      if i < n ∧ i < b.tbuffer.length then some (i % 256) else b.tbuffer[i]? := by
  induction n with
  | zero => simp [forLoop_zero]
  | succ n ih =>
    rw [forLoop_succ]
    have hlen : (forLoop n initTBody b).tbuffer.length = b.tbuffer.length := by
      clear ih
      induction n with
      | zero => simp [forLoop_zero]
      | succ m ihm => rw [forLoop_succ]; simpa [initTBody] using ihm
    simp only [initTBody, List.getElem?_set, toUChar_natCast, hlen, ih]
    by_cases h1 : n = i
    · subst h1
      by_cases h2 : n < b.tbuffer.length
      · simp [h2]
      · have : b.tbuffer[n]? = none := by
          apply List.getElem?_eq_none; omega
        simp [h2, this]
    · have e : (i < n + 1 ∧ i < b.tbuffer.length) ↔ (i < n ∧ i < b.tbuffer.length) := by
        constructor
        · rintro ⟨a, c⟩; exact ⟨by omega, c⟩
        · rintro ⟨a, c⟩; exact ⟨by omega, c⟩
      simp only [h1, if_false, e]

theorem initS_tbuffer (n : Nat) (b : Buffers) :
    (forLoop n initSBody b).tbuffer = b.tbuffer := by
  induction n with
  | zero => simp [forLoop_zero]
  | succ n ih => rw [forLoop_succ]; simpa [initSBody] using ih

/-- C1: after the initialisation loops of `main`, every index `i < MAXLENGTH` of
the pattern buffer exists and holds `i mod 256`. -/
theorem tbuffer_pattern (i : Nat) (h : i < MAXLENGTH) :
    (initBuffers staticBuffers).tbuffer[i]? = some (i % 256) := by
  unfold initBuffers
  rw [initS_tbuffer, initT_tbuffer]
  have hl : staticBuffers.tbuffer.length = MAXLENGTH := by
    simp [staticBuffers, zeroBuffer]
  simp [hl, h]

theorem tbuffer_pattern_witness :
    300 < MAXLENGTH ∧ (initBuffers staticBuffers).tbuffer[300]? = some (300 % 256) :=
  ⟨by decide, tbuffer_pattern 300 (by decide)⟩

/-! ## The compare loop -/

theorem mismatches_zero (rb tb : Buffer) : mismatches rb tb 0 = 0 := by
  simp [mismatches]

theorem mismatches_succ (rb tb : Buffer) (n : Nat) :
    mismatches rb tb (n + 1) =
      mismatches rb tb n + (if byteAt rb n ≠ byteAt tb n then 1 else 0) := by
  unfold mismatches
  rw [List.range_succ, List.filter_append, List.length_append]
  by_cases h : byteAt rb n = byteAt tb n
  · simp [List.filter, h]
  · simp [List.filter, h]

theorem mismatches_le (rb tb : Buffer) (n : Nat) : mismatches rb tb n ≤ n := by
  induction n with
  | zero => simp [mismatches_zero]
  | succ n ih => rw [mismatches_succ]; split <;> omega

theorem mismatches_eq_zero_iff (rb tb : Buffer) (n : Nat) :
    mismatches rb tb n = 0 ↔ ∀ i, i < n → byteAt rb i = byteAt tb i := by
  induction n with
  | zero => simp [mismatches_zero]
  | succ n ih =>
    rw [mismatches_succ]
    constructor
    · intro h i hi
      by_cases hn : byteAt rb n = byteAt tb n
      · simp [hn] at h
        by_cases e : i = n
        · subst e; exact hn
        · exact (ih.mp h) i (by omega)
      · simp [hn] at h
    · intro h
      have h1 := ih.mpr (fun i hi => h i (by omega))
      have h2 := h n (by omega)
      simp [h1, h2]

theorem compareLoop_err (k : Fin 4) (rb tb : Buffer) (n : Nat) (c : CmpState) :
    wrapInt (forLoop n (compareBody k rb tb) c).err_num
      = wrapInt (c.err_num + (mismatches rb tb n : Int)) := by
  induction n with
  | zero => simp [forLoop_zero, mismatches_zero]
  | succ n ih =>
    rw [forLoop_succ, mismatches_succ]
    by_cases h : byteAt rb n = byteAt tb n
    · simp [compareBody, h, ih]
    · simp only [compareBody, ne_eq, h, not_false_eq_true, if_true]
      unfold wrapInt at ih ⊢
      push_cast
      omega

theorem compareLoop_range (k : Fin 4) (rb tb : Buffer) (n : Nat) (c : CmpState)
    (h1 : -2147483648 ≤ c.err_num) (h2 : c.err_num < 2147483648) :
    -2147483648 ≤ (forLoop n (compareBody k rb tb) c).err_num ∧
      (forLoop n (compareBody k rb tb) c).err_num < 2147483648 := by
  induction n with
  | zero => simpa [forLoop_zero] using And.intro h1 h2
  | succ n ih =>
    rw [forLoop_succ]
    by_cases h : byteAt rb n = byteAt tb n
    · simpa [compareBody, h] using ih
    · simp only [compareBody, ne_eq, h, not_false_eq_true, if_true]
      unfold wrapInt
      omega

/-- C2: for a reported length `rec_len ≤ MAXLENGTH` and arbitrary buffer
contents, the compare loop of every receive worker adds to the `int` counter
`err_num` exactly the number of indices `i < rec_len` with
`rbuffer[i] != tbuffer[i]` (in 32-bit arithmetic, and as a plain sum when that
sum is representable); the counter is unchanged if and only if the first
`rec_len` bytes all equal the pattern. -/
theorem compare_counts_mismatches (k : Fin 4) (rb tb : Buffer) (rec_len : Nat) (err_num : Int)
    (hlen : rec_len ≤ MAXLENGTH)
    (hlo : -2147483648 ≤ err_num) (hhi : err_num < 2147483648) :
    (compareLoop k rb tb rec_len err_num).err_num
        = wrapInt (err_num + (mismatches rb tb rec_len : Int)) ∧
    ((compareLoop k rb tb rec_len err_num).err_num - err_num) % 4294967296
        = (mismatches rb tb rec_len : Int) ∧
    (err_num + (mismatches rb tb rec_len : Int) < 2147483648 →
      (compareLoop k rb tb rec_len err_num).err_num
        = err_num + (mismatches rb tb rec_len : Int)) ∧
    ((compareLoop k rb tb rec_len err_num).err_num = err_num ↔
      ∀ i, i < rec_len → byteAt rb i = byteAt tb i) := by
  have hr := compareLoop_range k rb tb rec_len { err_num := err_num, trace := [] } hlo hhi
  have he := compareLoop_err k rb tb rec_len { err_num := err_num, trace := [] }
  have hm := mismatches_le rb tb rec_len
  have hM : MAXLENGTH = 10240 := rfl
  rw [wrapInt_of_range _ hr.1 hr.2] at he
  simp only at he
  have hmain : (compareLoop k rb tb rec_len err_num).err_num
      = wrapInt (err_num + (mismatches rb tb rec_len : Int)) := he
  refine ⟨hmain, ?_, ?_, ?_⟩
  · rw [hmain]; unfold wrapInt; omega
  · intro hs; rw [hmain]; unfold wrapInt; omega
  · rw [← mismatches_eq_zero_iff, hmain]
    unfold wrapInt
    omega

theorem compare_counts_mismatches_witness :
    (compareLoop 1 [0, 9, 2, 7] [0, 1, 2, 3] 4 5).err_num
        = wrapInt (5 + (mismatches [0, 9, 2, 7] [0, 1, 2, 3] 4 : Int)) ∧
    ((compareLoop 1 [0, 9, 2, 7] [0, 1, 2, 3] 4 5).err_num - 5) % 4294967296
        = (mismatches [0, 9, 2, 7] [0, 1, 2, 3] 4 : Int) ∧
    (5 + (mismatches [0, 9, 2, 7] [0, 1, 2, 3] 4 : Int) < 2147483648 →
      (compareLoop 1 [0, 9, 2, 7] [0, 1, 2, 3] 4 5).err_num
        = 5 + (mismatches [0, 9, 2, 7] [0, 1, 2, 3] 4 : Int)) ∧
    ((compareLoop 1 [0, 9, 2, 7] [0, 1, 2, 3] 4 5).err_num = 5 ↔
      ∀ i, i < 4 → byteAt [0, 9, 2, 7] i = byteAt [0, 1, 2, 3] i) :=
  compare_counts_mismatches 1 [0, 9, 2, 7] [0, 1, 2, 3] 4 5 (by decide) (by decide) (by decide)

/-! ## The oversize branch of a receive worker -/

theorem recIteration_head (k : Fin 4) (tb : Buffer) (st : RecState) (inp : RecInput) :
    (recIteration k tb st inp).2.1.head? = some (Event.poll (recConfig k).fd) := by
  simp only [recIteration]
  split_ifs <;> simp

/-- C3: in a pass of receive worker `k` in which the read primitive reports
`rec_len > MAXLENGTH`, the worker takes the `continue` branch: its events are
the poll, the acknowledging `lseek`/`read`, the DMA read and the error line,
none of them an element read of `rbuffer` or `tbuffer`; `err_num` keeps its
value; and the next thing the worker does is the `poll` of the following pass. -/
theorem oversize_skipped (k : Fin 4) (tb : Buffer) (st : RecState) (inp nxt : RecInput)
    (hp : inp.pollpri = true) (hlen : inp.rec_len > MAXLENGTH) :
    (recIteration k tb st inp).2.2 = RecPath.skipped ∧
    (recIteration k tb st inp).1.err_num = st.err_num ∧
    (recIteration k tb st inp).1.cnt = wrapInt (st.cnt + 1) ∧
    (recIteration k tb st inp).2.1 =
      [Event.poll (recConfig k).fd] ++ msgIfFailed inp.pollRet "poll\n"
        ++ [Event.lseek (recConfig k).fd] ++ msgIfFailed inp.lseekRet "lseek\n"
        ++ [Event.read (recConfig k).fd] ++ msgIfFailed inp.readRet "read\n"
        ++ [Event.dmaRead (recConfig k).readPrim (recConfig k).desc (recConfig k).buf]
        ++ [Event.fprintf .stdout (recConfig k).lenError []] ∧
    (∀ e, e ∈ (recIteration k tb st inp).2.1 → e.isLoad = false) ∧
    (∀ rest, (recRun k tb st (inp :: rest)).2 =
      (recIteration k tb st inp).2.1 ++ (recRun k tb (recIteration k tb st inp).1 rest).2) ∧
    (recIteration k tb (recIteration k tb st inp).1 nxt).2.1.head?
      = some (Event.poll (recConfig k).fd) := by
  have hiter : recIteration k tb st inp =
      ({ cnt := wrapInt (st.cnt + 1), err_num := st.err_num },
        [Event.poll (recConfig k).fd] ++ msgIfFailed inp.pollRet "poll\n"
        ++ [Event.lseek (recConfig k).fd] ++ msgIfFailed inp.lseekRet "lseek\n"
        ++ [Event.read (recConfig k).fd] ++ msgIfFailed inp.readRet "read\n"
        ++ [Event.dmaRead (recConfig k).readPrim (recConfig k).desc (recConfig k).buf]
        ++ [Event.fprintf .stdout (recConfig k).lenError []], RecPath.skipped) := by
    simp [recIteration, hp, hlen]
  refine ⟨by rw [hiter], by rw [hiter], by rw [hiter], by rw [hiter], ?_, ?_,
    recIteration_head k tb _ nxt⟩
  · intro e he
    rw [hiter] at he
    simp only [msgIfFailed, List.mem_append, List.mem_singleton] at he
    rcases he with ((((((h | h) | h) | h) | h) | h) | h) | h
    all_goals first
      | (subst h; rfl)
      | (split at h
         · simp only [List.mem_singleton] at h; subst h; rfl
         · simp at h)
  · intro rest
    rw [recRun]

theorem oversize_skipped_witness :
    (oversizeInput.pollpri = true ∧ oversizeInput.rec_len > MAXLENGTH) ∧
    (recIteration 2 zeroBuffer ⟨999, 7⟩ oversizeInput).2.2 = RecPath.skipped ∧
    (recIteration 2 zeroBuffer ⟨999, 7⟩ oversizeInput).1.err_num = 7 ∧
    (recIteration 2 zeroBuffer ⟨999, 7⟩ oversizeInput).1.cnt = wrapInt (999 + 1) ∧
    (recIteration 2 zeroBuffer ⟨999, 7⟩ oversizeInput).2.1 =
      [Event.poll (recConfig 2).fd] ++ msgIfFailed oversizeInput.pollRet "poll\n"
        ++ [Event.lseek (recConfig 2).fd] ++ msgIfFailed oversizeInput.lseekRet "lseek\n"
        ++ [Event.read (recConfig 2).fd] ++ msgIfFailed oversizeInput.readRet "read\n"
        ++ [Event.dmaRead (recConfig 2).readPrim (recConfig 2).desc (recConfig 2).buf]
        ++ [Event.fprintf .stdout (recConfig 2).lenError []] ∧
    (∀ e, e ∈ (recIteration 2 zeroBuffer ⟨999, 7⟩ oversizeInput).2.1 → e.isLoad = false) ∧
    (∀ rest, (recRun 2 zeroBuffer ⟨999, 7⟩ (oversizeInput :: rest)).2 =
      (recIteration 2 zeroBuffer ⟨999, 7⟩ oversizeInput).2.1 ++
        (recRun 2 zeroBuffer (recIteration 2 zeroBuffer ⟨999, 7⟩ oversizeInput).1 rest).2) ∧
    (recIteration 2 zeroBuffer (recIteration 2 zeroBuffer ⟨999, 7⟩ oversizeInput).1
        shortInput).2.1.head? = some (Event.poll (recConfig 2).fd) :=
  ⟨⟨rfl, by decide⟩,
    oversize_skipped 2 zeroBuffer ⟨999, 7⟩ oversizeInput shortInput rfl (by decide)⟩

/-! ## The option scan of `parse_args` -/

theorem print_usage_false :
    print_usage false = [Event.fprintf .stderr usageLine []] := rfl

theorem print_usage_true :
    print_usage true =
      [Event.fprintf .stdout usageLine [], Event.fprintf .stdout usageT [],
       Event.fprintf .stdout usageR [], Event.fprintf .stdout usageS [],
       Event.fprintf .stdout usageO []] := rfl

/-- The three ways the scan can end, with the output each one adds. -/
theorem parseLoop_out (opts : List Opt) (st : ParseState) :
    ((parseLoop opts st).2 = none ∧ (parseLoop opts st).1.out = st.out) ∨
    ((∃ rc, rc < 0 ∧ (parseLoop opts st).2 = some (.ret rc)) ∧
      (parseLoop opts st).1.out = st.out ++ print_usage false) ∨
    ((parseLoop opts st).2 = some (.exit 0) ∧
      (parseLoop opts st).1.out = st.out ++ print_usage true ++ [Event.exit 0]) := by
  induction opts generalizing st with
  | nil => left; simp [parseLoop]
  | cons x rest ih =>
    cases x with
    | t rc v =>
      by_cases h : rc < 0
      · right; left; simp [parseLoop, h]
      · simpa [parseLoop, h] using ih { st with input_channel := v }
    | r rc v =>
      by_cases h : rc < 0
      · right; left; simp [parseLoop, h]
      · simpa [parseLoop, h] using ih { st with output_channel := v }
    | s rc v =>
      by_cases h : rc < 0
      · right; left; simp [parseLoop, h]
      · simpa [parseLoop, h] using ih { st with output_size := v, s_specified := true }
    | o rc v =>
      by_cases h : rc < 0
      · right; left; simp [parseLoop, h]
      · simpa [parseLoop, h] using ih { st with output_size := v, o_specified := true }
    | h => right; right; simp [parseLoop]
    | other => right; left; simp [parseLoop, EINVAL]

/-- A scan without `-h` in which every argument parses either meets an unknown
option, or reaches its end having recorded which of `-s`, `-o` occurred. -/
theorem parseLoop_flags (opts : List Opt) (st : ParseState)
    (hh : ∀ x, x ∈ opts → x.isH = false) (hp : ∀ x, x ∈ opts → x.parsed = true) :
    (parseLoop opts st).2 = some (.ret (-EINVAL)) ∨
    ((parseLoop opts st).2 = none ∧
      (parseLoop opts st).1.s_specified = (st.s_specified || opts.any Opt.isS) ∧
      (parseLoop opts st).1.o_specified = (st.o_specified || opts.any Opt.isO)) := by
  induction opts generalizing st with
  | nil => right; simp [parseLoop]
  | cons x rest ih =>
    have hh1 : ∀ y, y ∈ rest → y.isH = false := fun y hy => hh y (List.mem_cons_of_mem _ hy)
    have hp1 : ∀ y, y ∈ rest → y.parsed = true := fun y hy => hp y (List.mem_cons_of_mem _ hy)
    have hx := hp x (List.mem_cons_self _ _)
    have hxh := hh x (List.mem_cons_self _ _)
    cases x with
    | t rc v =>
      have h : ¬ rc < 0 := by simpa [Opt.parsed] using hx
      simpa [parseLoop, h, Opt.isS, Opt.isO] using ih { st with input_channel := v } hh1 hp1
    | r rc v =>
      have h : ¬ rc < 0 := by simpa [Opt.parsed] using hx
      simpa [parseLoop, h, Opt.isS, Opt.isO] using ih { st with output_channel := v } hh1 hp1
    | s rc v =>
      have h : ¬ rc < 0 := by simpa [Opt.parsed] using hx
      simpa [parseLoop, h, Opt.isS, Opt.isO] using
        ih { st with output_size := v, s_specified := true } hh1 hp1
    | o rc v =>
      have h : ¬ rc < 0 := by simpa [Opt.parsed] using hx
      simpa [parseLoop, h, Opt.isS, Opt.isO] using
        ih { st with output_size := v, o_specified := true } hh1 hp1
    | h => simp [Opt.isH] at hxh
    | other => left; simp [parseLoop]

/-- C4: whenever the option scan contains no `-h`, every option argument parses,
and both `-s` and `-o` occur (anywhere, with any values), `parse_args` returns
`-EINVAL`, which is negative, and `main` ends with `return 1`. -/
theorem size_flags_exclusive (env : Driver) (opts : List Opt) (optind argc : Int)
    (hh : ∀ x, x ∈ opts → x.isH = false) (hp : ∀ x, x ∈ opts → x.parsed = true)
    (hs : ∃ rc v, Opt.s rc v ∈ opts) (ho : ∃ rc v, Opt.o rc v ∈ opts) :
    (parse_args opts optind argc).2 = ParseEnd.ret (-EINVAL) ∧ -EINVAL < 0 ∧
    (main env opts optind argc).ending = MainEnd.returned 1 := by
  have hret : (parse_args opts optind argc).2 = ParseEnd.ret (-EINVAL) := by
    obtain ⟨rc1, v1, hs1⟩ := hs
    obtain ⟨rc2, v2, ho2⟩ := ho
    have hanyS : opts.any Opt.isS = true := List.any_eq_true.mpr ⟨_, hs1, rfl⟩
    have hanyO : opts.any Opt.isO = true := List.any_eq_true.mpr ⟨_, ho2, rfl⟩
    unfold parse_args
    rcases parseLoop_flags opts parseInit hh hp with h | ⟨h1, h2, h3⟩
    · rcases hq : parseLoop opts parseInit with ⟨st, e⟩
      rw [hq] at h
      simp only at h
      subst h
      rfl
    · rcases hq : parseLoop opts parseInit with ⟨st, e⟩
      rw [hq] at h1 h2 h3
      simp only at h1 h2 h3
      subst h1
      simp only [hanyS, hanyO, Bool.or_true] at h2 h3
      simp only [parseChecks, h2, h3, Bool.and_self, if_true]
      split_ifs <;> rfl
  refine ⟨hret, by decide, ?_⟩
  unfold main
  simp only [hret]
  simp [EINVAL]

theorem size_flags_exclusive_witness :
    ((∀ x, x ∈ [Opt.o 0 2097152, Opt.t 0 0, Opt.s 0 4096, Opt.r 0 1] → x.isH = false) ∧
     (∀ x, x ∈ [Opt.o 0 2097152, Opt.t 0 0, Opt.s 0 4096, Opt.r 0 1] → x.parsed = true) ∧
     (∃ rc v, Opt.s rc v ∈ [Opt.o 0 2097152, Opt.t 0 0, Opt.s 0 4096, Opt.r 0 1]) ∧
     (∃ rc v, Opt.o rc v ∈ [Opt.o 0 2097152, Opt.t 0 0, Opt.s 0 4096, Opt.r 0 1])) ∧
    (parse_args [Opt.o 0 2097152, Opt.t 0 0, Opt.s 0 4096, Opt.r 0 1] 9 9).2
      = ParseEnd.ret (-EINVAL) ∧ -EINVAL < 0 ∧
    (main sortedDriver [Opt.o 0 2097152, Opt.t 0 0, Opt.s 0 4096, Opt.r 0 1] 9 9).ending
      = MainEnd.returned 1 :=
  ⟨⟨by decide, by decide, ⟨0, 4096, by decide⟩, ⟨0, 2097152, by decide⟩⟩,
    size_flags_exclusive sortedDriver [Opt.o 0 2097152, Opt.t 0 0, Opt.s 0 4096, Opt.r 0 1] 9 9
      (by decide) (by decide) ⟨0, 4096, by decide⟩ ⟨0, 2097152, by decide⟩⟩

/-- Everything `parse_args` can print, by the way it ends. -/
theorem parse_args_out (opts : List Opt) (optind argc : Int) :
    ((parse_args opts optind argc).2 = ParseEnd.exit 0 ∧
      (parse_args opts optind argc).1.out = print_usage true ++ [Event.exit 0]) ∨
    ((∃ rc, rc < 0 ∧ (parse_args opts optind argc).2 = ParseEnd.ret rc) ∧
      ((parse_args opts optind argc).1.out = print_usage false ∨
        ∃ m, m ∈ errorTexts ∧
          (parse_args opts optind argc).1.out
            = [Event.fprintf .stderr m []] ++ print_usage false)) ∨
    ((parse_args opts optind argc).2 = ParseEnd.ret 0 ∧
      (parse_args opts optind argc).1.out = []) := by
  unfold parse_args
  rcases parseLoop_out opts parseInit with ⟨h1, h2⟩ | ⟨⟨rc, hrc, h1⟩, h2⟩ | ⟨h1, h2⟩
  · rcases hq : parseLoop opts parseInit with ⟨st, e⟩
    rw [hq] at h1 h2
    simp only at h1 h2
    subst h1
    have hout : st.out = [] := by rw [h2]; rfl
    simp only [parseChecks, hout, List.nil_append]
    split_ifs
    · right; left
      exact ⟨⟨_, by decide, rfl⟩, Or.inr ⟨_, by simp [errorTexts], rfl⟩⟩
    · right; left
      exact ⟨⟨_, by decide, rfl⟩, Or.inr ⟨_, by simp [errorTexts], rfl⟩⟩
    · right; left
      exact ⟨⟨_, by decide, rfl⟩, Or.inr ⟨_, by simp [errorTexts], rfl⟩⟩
    · right; right
      exact ⟨rfl, hout⟩
  · rcases hq : parseLoop opts parseInit with ⟨st, e⟩
    rw [hq] at h1 h2
    simp only at h1 h2
    subst h1
    right; left
    refine ⟨⟨rc, hrc, rfl⟩, Or.inl ?_⟩
    simpa [parseInit] using h2
  · rcases hq : parseLoop opts parseInit with ⟨st, e⟩
    rw [hq] at h1 h2
    simp only at h1 h2
    subst h1
    left
    refine ⟨rfl, ?_⟩
    simpa [parseInit] using h2

/-- A scan whose options before the first `-h` are all accepted ends in the
`-h` case. -/
theorem parseLoop_help (pre post : List Opt) (st : ParseState)
    (hpre : ∀ x, x ∈ pre → x.accepted = true) :
    (parseLoop (pre ++ Opt.h :: post) st).2 = some (.exit 0) ∧
    (parseLoop (pre ++ Opt.h :: post) st).1.out
      = st.out ++ print_usage true ++ [Event.exit 0] := by
  induction pre generalizing st with
  | nil => simp [parseLoop]
  | cons x rest ih =>
    have h1 : ∀ y, y ∈ rest → y.accepted = true :=
      fun y hy => hpre y (List.mem_cons_of_mem _ hy)
    have hx := hpre x (List.mem_cons_self _ _)
    cases x with
    | t rc v =>
      have h : ¬ rc < 0 := by simpa [Opt.accepted] using hx
      simpa [parseLoop, h] using ih { st with input_channel := v } h1
    | r rc v =>
      have h : ¬ rc < 0 := by simpa [Opt.accepted] using hx
      simpa [parseLoop, h] using ih { st with output_channel := v } h1
    | s rc v =>
      have h : ¬ rc < 0 := by simpa [Opt.accepted] using hx
      simpa [parseLoop, h] using ih { st with output_size := v, s_specified := true } h1
    | o rc v =>
      have h : ¬ rc < 0 := by simpa [Opt.accepted] using hx
      simpa [parseLoop, h] using ih { st with output_size := v, o_specified := true } h1
    | h => simp [Opt.accepted] at hx
    | other => simp [Opt.accepted] at hx

/-- What `main` does when `parse_args` does not return 0. -/
theorem main_of_parse_stop (env : Driver) (opts : List Opt) (optind argc : Int) :
    ((parse_args opts optind argc).2 = ParseEnd.exit 0 →
      (main env opts optind argc).trace
          = [Event.gpioInit, Event.axidma_config] ++ (parse_args opts optind argc).1.out ∧
      (main env opts optind argc).ending = MainEnd.exited 0) ∧
    (∀ rc, rc < 0 → (parse_args opts optind argc).2 = ParseEnd.ret rc →
      (main env opts optind argc).trace
          = [Event.gpioInit, Event.axidma_config] ++ (parse_args opts optind argc).1.out ∧
      (main env opts optind argc).ending = MainEnd.returned 1) := by
  constructor
  · intro h
    unfold main
    simp [h]
  · intro rc hrc h
    unfold main
    simp [h, hrc]

/-! ## The channel check -/

/-- C5: the channel check tests the stored values against the default `-1`, not
whether the options occurred. With `-t -1 -r 3` both options are supplied and
the check rejects with `-EINVAL`; with `-t -1` alone only one is supplied and
the check lets the vector pass (`parse_args` returns 0). -/
theorem channel_check_confuses_minus_one :
    channelCheck (parseLoop [Opt.t 0 (-1), Opt.r 0 3] parseInit).1 = true ∧
    (parse_args [Opt.t 0 (-1), Opt.r 0 3] 5 5).2 = ParseEnd.ret (-EINVAL) ∧
    (parse_args [Opt.t 0 (-1), Opt.r 0 3] 5 5).1.out =
      [Event.fprintf .stderr
        ("Error: Either both -t and -r must be specified, or " ++ "neither.\n") [],
       Event.fprintf .stderr usageLine []] ∧
    channelCheck (parseLoop [Opt.t 0 (-1)] parseInit).1 = false ∧
    (parse_args [Opt.t 0 (-1)] 3 3).2 = ParseEnd.ret 0 ∧
    (parse_args [Opt.t 0 (-1)] 3 3).1.out = [] := by
  refine ⟨by decide, by decide, by rfl, by decide, by decide, by rfl⟩

/-! ## Order of hardware initialisation and argument parsing in `main` -/

/-- C6, as stated, fails: for the rejected vector `-s 4096 -o 2` `main` returns 1
and for `-h` the process exits with 0, and in both runs `GpioInit` and
`axidma_config` have been called before `parse_args` printed anything. -/
theorem hardware_precedes_verdict :
    (parse_args [Opt.s 0 4096, Opt.o 0 2097152] 5 5).2 = ParseEnd.ret (-EINVAL) ∧
    (main sortedDriver [Opt.s 0 4096, Opt.o 0 2097152] 5 5).ending = MainEnd.returned 1 ∧
    (main sortedDriver [Opt.s 0 4096, Opt.o 0 2097152] 5 5).trace =
      [Event.gpioInit, Event.axidma_config,
       Event.fprintf .stderr "Error: Only one of -s and -o can be specified.\n" [],
       Event.fprintf .stderr usageLine []] ∧
    (main sortedDriver [Opt.h] 2 2).ending = MainEnd.exited 0 ∧
    (main sortedDriver [Opt.h] 2 2).trace.take 2 = [Event.gpioInit, Event.axidma_config] ∧
    Event.isHardware Event.gpioInit = true ∧ Event.isHardware Event.axidma_config = true := by
  refine ⟨by decide, by decide, by rfl, by decide, by rfl, rfl, rfl⟩

/-- C6, amended: for every argument vector that `parse_args` rejects or that
makes it take the `-h` exit, the actions of `main` are `GpioInit`, then
`axidma_config`, then the output of `parse_args`; these two calls are the only
hardware actions of the run (no `axidma_init`, channel query, allocation or
transfer), and the run ends with `exit(0)` or `return 1`. -/
theorem only_gpio_and_config_precede_verdict (env : Driver) (opts : List Opt)
    (optind argc : Int)
    (h : (parse_args opts optind argc).2 = ParseEnd.exit 0 ∨
      ∃ rc, rc < 0 ∧ (parse_args opts optind argc).2 = ParseEnd.ret rc) :
    (main env opts optind argc).trace
      = [Event.gpioInit, Event.axidma_config] ++ (parse_args opts optind argc).1.out ∧
    (∀ e, e ∈ (parse_args opts optind argc).1.out → e.isHardware = false) ∧
    (main env opts optind argc).trace.filter Event.isHardware
      = [Event.gpioInit, Event.axidma_config] ∧
    Event.axidma_init ∉ (main env opts optind argc).trace ∧
    ((main env opts optind argc).ending = MainEnd.exited 0 ∨
      (main env opts optind argc).ending = MainEnd.returned 1) := by
  have hout : ∀ e, e ∈ (parse_args opts optind argc).1.out → e.isHardware = false := by
    intro e he
    rcases parse_args_out opts optind argc with ⟨_, h2⟩ | ⟨_, h2 | ⟨m, _, h2⟩⟩ | ⟨_, h2⟩
    · rw [h2, print_usage_true] at he
      simp only [List.cons_append, List.nil_append, List.mem_cons, List.mem_singleton,
        List.mem_nil_iff, or_false] at he
      rcases he with h | h | h | h | h | h <;> (subst h; rfl)
    · rw [h2, print_usage_false] at he
      simp only [List.mem_singleton] at he
      subst he; rfl
    · rw [h2, print_usage_false] at he
      simp only [List.cons_append, List.nil_append, List.mem_cons, List.mem_singleton,
        List.mem_nil_iff, or_false] at he
      rcases he with h | h <;> (subst h; rfl)
    · rw [h2] at he
      simp at he
  have hm := main_of_parse_stop env opts optind argc
  have htrace : (main env opts optind argc).trace
      = [Event.gpioInit, Event.axidma_config] ++ (parse_args opts optind argc).1.out := by
    rcases h with h | ⟨rc, hrc, h⟩
    · exact (hm.1 h).1
    · exact (hm.2 rc hrc h).1
  have hfilter : (parse_args opts optind argc).1.out.filter Event.isHardware = [] := by
    rw [List.filter_eq_nil_iff]
    intro e he
    simp [hout e he]
  refine ⟨htrace, hout, ?_, ?_, ?_⟩
  · rw [htrace, List.filter_append, hfilter]
    rfl
  · rw [htrace]
    intro hmem
    simp only [List.cons_append, List.nil_append, List.mem_cons] at hmem
    rcases hmem with h1 | h1 | h1
    · cases h1
    · cases h1
    · have := hout _ h1
      simp [Event.isHardware] at this
  · rcases h with h | ⟨rc, hrc, h⟩
    · exact Or.inl (hm.1 h).2
    · exact Or.inr (hm.2 rc hrc h).2

theorem only_gpio_and_config_precede_verdict_witness :
    ((parse_args [Opt.s 0 4096, Opt.o 0 2097152] 5 5).2 = ParseEnd.exit 0 ∨
      ∃ rc, rc < 0 ∧ (parse_args [Opt.s 0 4096, Opt.o 0 2097152] 5 5).2 = ParseEnd.ret rc) ∧
    (main sortedDriver [Opt.s 0 4096, Opt.o 0 2097152] 5 5).trace
      = [Event.gpioInit, Event.axidma_config]
          ++ (parse_args [Opt.s 0 4096, Opt.o 0 2097152] 5 5).1.out ∧
    (∀ e, e ∈ (parse_args [Opt.s 0 4096, Opt.o 0 2097152] 5 5).1.out →
      e.isHardware = false) ∧
    (main sortedDriver [Opt.s 0 4096, Opt.o 0 2097152] 5 5).trace.filter Event.isHardware
      = [Event.gpioInit, Event.axidma_config] ∧
    Event.axidma_init ∉ (main sortedDriver [Opt.s 0 4096, Opt.o 0 2097152] 5 5).trace ∧
    ((main sortedDriver [Opt.s 0 4096, Opt.o 0 2097152] 5 5).ending = MainEnd.exited 0 ∨
      (main sortedDriver [Opt.s 0 4096, Opt.o 0 2097152] 5 5).ending = MainEnd.returned 1) :=
  ⟨Or.inr ⟨-22, by decide, by decide⟩,
    only_gpio_and_config_precede_verdict sortedDriver [Opt.s 0 4096, Opt.o 0 2097152] 5 5
      (Or.inr ⟨-22, by decide, by decide⟩)⟩

/-! ## Usage output -/

theorem errorTexts_not_usage (m : String) (hm : m ∈ errorTexts) :
    Event.isUsage (Event.fprintf .stderr m []) = false := by
  simp only [errorTexts, List.mem_cons, List.mem_singleton, List.mem_nil_iff, or_false] at hm
  rcases hm with h | h | h <;> (subst h; decide)

theorem usageLine_is_usage : Event.isUsage (Event.fprintf .stderr usageLine []) = true := by
  decide

/-- C7: (help) when the option scan reaches `-h` after options that were all
accepted, `parse_args` prints the usage line and the `-t`, `-r`, `-s`, `-o`
descriptions, in this order, on standard output and calls `exit(0)`, which ends
`main` with status 0. (rejection) when `parse_args` returns a negative code,
everything it printed went to standard error, nothing to standard output, and
the usage text in it is the usage line alone, printed last, after at most one
diagnostic line; `main` then returns 1. -/
theorem usage_on_help_and_on_rejection (env : Driver) (pre post opts : List Opt)
    (optind argc optind2 argc2 : Int)
    (hpre : ∀ x, x ∈ pre → x.accepted = true)
    (hrej : ∃ rc, rc < 0 ∧ (parse_args opts optind2 argc2).2 = ParseEnd.ret rc) :
    ((parse_args (pre ++ Opt.h :: post) optind argc).2 = ParseEnd.exit 0 ∧
     (parse_args (pre ++ Opt.h :: post) optind argc).1.out =
       [Event.fprintf .stdout usageLine [], Event.fprintf .stdout usageT [],
        Event.fprintf .stdout usageR [], Event.fprintf .stdout usageS [],
        Event.fprintf .stdout usageO [], Event.exit 0] ∧
     (main env (pre ++ Opt.h :: post) optind argc).ending = MainEnd.exited 0 ∧
     (main env (pre ++ Opt.h :: post) optind argc).trace =
       [Event.gpioInit, Event.axidma_config,
        Event.fprintf .stdout usageLine [], Event.fprintf .stdout usageT [],
        Event.fprintf .stdout usageR [], Event.fprintf .stdout usageS [],
        Event.fprintf .stdout usageO [], Event.exit 0]) ∧
    (((parse_args opts optind2 argc2).1.out = [Event.fprintf .stderr usageLine []] ∨
       ∃ m, m ∈ errorTexts ∧ (parse_args opts optind2 argc2).1.out =
         [Event.fprintf .stderr m [], Event.fprintf .stderr usageLine []]) ∧
     (parse_args opts optind2 argc2).1.out.filter Event.isUsage
       = [Event.fprintf .stderr usageLine []] ∧
     (∀ e, e ∈ (parse_args opts optind2 argc2).1.out → e.writesTo .stderr = true) ∧
     (main env opts optind2 argc2).ending = MainEnd.returned 1) := by
  constructor
  · have hl := parseLoop_help pre post parseInit hpre
    have h2 : (parse_args (pre ++ Opt.h :: post) optind argc).2 = ParseEnd.exit 0 := by
      unfold parse_args
      rcases hq : parseLoop (pre ++ Opt.h :: post) parseInit with ⟨st, e⟩
      rw [hq] at hl
      simp only at hl
      rw [hl.1]
    have h1 : (parse_args (pre ++ Opt.h :: post) optind argc).1.out =
        print_usage true ++ [Event.exit 0] := by
      unfold parse_args
      rcases hq : parseLoop (pre ++ Opt.h :: post) parseInit with ⟨st, e⟩
      rw [hq] at hl
      simp only at hl
      rw [hl.1]
      simpa [parseInit] using hl.2
    have hm := (main_of_parse_stop env (pre ++ Opt.h :: post) optind argc).1 h2
    refine ⟨h2, ?_, hm.2, ?_⟩
    · rw [h1]; rfl
    · rw [hm.1, h1]; rfl
  · obtain ⟨rc, hrc, hret⟩ := hrej
    have hm := (main_of_parse_stop env opts optind2 argc2).2 rc hrc hret
    have hforms : (parse_args opts optind2 argc2).1.out = [Event.fprintf .stderr usageLine []] ∨
        ∃ m, m ∈ errorTexts ∧ (parse_args opts optind2 argc2).1.out =
          [Event.fprintf .stderr m [], Event.fprintf .stderr usageLine []] := by
      rcases parse_args_out opts optind2 argc2 with ⟨h1, _⟩ | ⟨_, h2 | ⟨m, hmem, h2⟩⟩ | ⟨h1, _⟩
      · rw [hret] at h1; cases h1
      · left; rw [h2]; rfl
      · right; exact ⟨m, hmem, by rw [h2]; rfl⟩
      · rw [hret] at h1
        injection h1 with h1
        omega
    refine ⟨hforms, ?_, ?_, hm.2⟩
    · rcases hforms with h | ⟨m, hmem, h⟩
      · rw [h]
        simp [List.filter, usageLine_is_usage]
      · rw [h]
        simp [List.filter, usageLine_is_usage, errorTexts_not_usage m hmem]
    · intro e he
      rcases hforms with h | ⟨m, hmem, h⟩
      · rw [h] at he
        simp only [List.mem_singleton] at he
        subst he; rfl
      · rw [h] at he
        simp only [List.mem_cons, List.mem_singleton, List.mem_nil_iff, or_false] at he
        rcases he with h1 | h1 <;> (subst h1; rfl)

theorem usage_on_help_and_on_rejection_witness :
    ((∀ x, x ∈ [Opt.t 0 2, Opt.s 0 4096] → x.accepted = true) ∧
     (∃ rc, rc < 0 ∧ (parse_args [Opt.t 0 2, Opt.other] 4 4).2 = ParseEnd.ret rc)) ∧
    ((parse_args ([Opt.t 0 2, Opt.s 0 4096] ++ Opt.h :: [Opt.other]) 6 7).2 = ParseEnd.exit 0 ∧
     (parse_args ([Opt.t 0 2, Opt.s 0 4096] ++ Opt.h :: [Opt.other]) 6 7).1.out =
       [Event.fprintf .stdout usageLine [], Event.fprintf .stdout usageT [],
        Event.fprintf .stdout usageR [], Event.fprintf .stdout usageS [],
        Event.fprintf .stdout usageO [], Event.exit 0] ∧
     (main sortedDriver ([Opt.t 0 2, Opt.s 0 4096] ++ Opt.h :: [Opt.other]) 6 7).ending
       = MainEnd.exited 0 ∧
     (main sortedDriver ([Opt.t 0 2, Opt.s 0 4096] ++ Opt.h :: [Opt.other]) 6 7).trace =
       [Event.gpioInit, Event.axidma_config,
        Event.fprintf .stdout usageLine [], Event.fprintf .stdout usageT [],
        Event.fprintf .stdout usageR [], Event.fprintf .stdout usageS [],
        Event.fprintf .stdout usageO [], Event.exit 0]) ∧
    (((parse_args [Opt.t 0 2, Opt.other] 4 4).1.out = [Event.fprintf .stderr usageLine []] ∨
       ∃ m, m ∈ errorTexts ∧ (parse_args [Opt.t 0 2, Opt.other] 4 4).1.out =
         [Event.fprintf .stderr m [], Event.fprintf .stderr usageLine []]) ∧
     (parse_args [Opt.t 0 2, Opt.other] 4 4).1.out.filter Event.isUsage
       = [Event.fprintf .stderr usageLine []] ∧
     (∀ e, e ∈ (parse_args [Opt.t 0 2, Opt.other] 4 4).1.out → e.writesTo .stderr = true) ∧
     (main sortedDriver [Opt.t 0 2, Opt.other] 4 4).ending = MainEnd.returned 1) :=
  ⟨⟨by decide, ⟨-22, by decide, by decide⟩⟩,
    usage_on_help_and_on_rejection sortedDriver [Opt.t 0 2, Opt.s 0 4096] [Opt.other]
      [Opt.t 0 2, Opt.other] 6 7 4 4 (by decide) ⟨-22, by decide, by decide⟩⟩

/-! ## Default channel selection -/

theorem sendCount_step (e acc : List Event) :
    sendCount (e.reverse ++ acc) = sendCount e + sendCount acc := by
  simp [sendCount, List.countP_append]

theorem sendCount_reverse (acc : List Event) : sendCount acc.reverse = sendCount acc := by
  simp [sendCount]

/-- Every pass of a transmit worker performs exactly one transmission. -/
theorem sendIteration_sends_once (k : Fin 4) (cnt : Int) :
    sendCount (sendIteration k cnt).1 = 1 := by
  simp only [sendIteration]
  split_ifs <;> simp [sendCount, List.countP_cons, Event.isSend]

/-- A pass entered with a counter below 99999 stays in the loop. -/
theorem sendIteration_continues (k : Fin 4) (cnt : Int) (h0 : 0 ≤ cnt) (h1 : cnt + 1 < 100000) :
    (sendIteration k cnt).2 = some (cnt + 1) := by
  have hw : wrapInt (cnt + 1) = cnt + 1 := wrapInt_of_range _ (by omega) (by omega)
  have hne : cnt + 1 ≠ 100000 := by omega
  simp [sendIteration, hw, hne]

/-- The pass entered with counter 99999 executes `return 0`. -/
theorem sendIteration_returns (k : Fin 4) : (sendIteration k 99999).2 = none := by
  have hw : wrapInt (99999 + 1) = 100000 := by decide
  simp only [sendIteration, hw, if_true]

/-- Status and number of transmissions after at most `n` passes from `cnt`. -/
theorem sendRunFrom_spec (k : Fin 4) (n : Nat) :
    ∀ (cnt : Int) (acc : List Event), 0 ≤ cnt → cnt < 100000 →
      (sendRunFrom k n cnt acc).2 = (if cnt + n < 100000 then some (cnt + n) else none) ∧
      (sendCount (sendRunFrom k n cnt acc).1 : Int)
        = sendCount acc + min (n : Int) (100000 - cnt) := by
  induction n with
  | zero =>
    intro cnt acc h0 h1
    simp only [sendRunFrom, sendCount_reverse]
    constructor
    · simp [h1]
    · have : min (((0 : Nat) : Int)) (100000 - cnt) = 0 := by
        rw [min_def]; split_ifs <;> omega
      rw [this]; simp
  | succ m ih =>
    intro cnt acc h0 h1
    have hone := sendIteration_sends_once k cnt
    by_cases hc : cnt + 1 < 100000
    · have hcont := sendIteration_continues k cnt h0 hc
      rcases hq : sendIteration k cnt with ⟨e, r⟩
      rw [hq] at hone hcont
      simp only at hone hcont
      subst hcont
      have hrec := ih (cnt + 1) (e.reverse ++ acc) (by omega) hc
      simp only [sendRunFrom, hq]
      rw [hrec.1, hrec.2, sendCount_step, hone]
      constructor
      · have e1 : cnt + 1 + (m : Int) = cnt + ((m + 1 : Nat) : Int) := by push_cast; ring
        rw [e1]
      · rw [min_def, min_def]
        push_cast
        split_ifs <;> omega
    · have h9 : cnt = 99999 := by omega
      subst h9
      have hret := sendIteration_returns k
      rcases hq : sendIteration k 99999 with ⟨e, r⟩
      rw [hq] at hone hret
      simp only at hone hret
      subst hret
      simp only [sendRunFrom, hq, sendCount_reverse, sendCount_step, hone]
      constructor
      · have : ¬ ((99999 : Int) + ((m + 1 : Nat) : Int) < 100000) := by push_cast; omega
        rw [if_neg this]
      · rw [min_def]
        push_cast
        split_ifs <;> omega

/-- C9, as stated, fails: transmit worker 0 reaches counter 99999 inside its
loop, and the pass entered with that counter takes the branch `cnt == 100000`
and returns, so a worker observed for 100000 passes (or for one more) has left
its loop after exactly 100000 transmissions. -/
theorem send_worker_leaves_loop :
    (rapidio_taks_send 0 99999).2 = some 99999 ∧
    (sendIteration 0 99999).2 = none ∧
    (rapidio_taks_send 0 100000).2 = none ∧
    sendCount (rapidio_taks_send 0 100000).1 = 100000 ∧
    (rapidio_taks_send 0 100001).2 = none ∧
    sendCount (rapidio_taks_send 0 100001).1 = 100000 := by
  have h1 := sendRunFrom_spec 0 100000 0 [] (by decide) (by decide)
  have h2 := sendRunFrom_spec 0 100001 0 [] (by decide) (by decide)
  have h3 := sendRunFrom_spec 0 99999 0 [] (by decide) (by decide)
  refine ⟨?_, sendIteration_returns 0, ?_, ?_, ?_, ?_⟩
  · rw [rapidio_taks_send, h3.1]; simp
  · rw [rapidio_taks_send, h1.1]; simp
  · have := h1.2
    rw [rapidio_taks_send]
    simp [sendCount] at this ⊢
    exact_mod_cast this
  · rw [rapidio_taks_send, h2.1]; simp
  · have := h2.2
    rw [rapidio_taks_send]
    simp [sendCount] at this ⊢
    exact_mod_cast this

/-- The events of a pass of a transmit worker, whatever its counter: the sleep,
the transmission, the periodic line when the incremented counter is a multiple
of 1000, and the count line when it is 100000. -/
theorem sendIteration_events (k : Fin 4) (cnt : Int) :
    (sendIteration k cnt).1 =
      [Event.usleep 4000,
       Event.dmaSend (sendConfig k).sendPrim (sendConfig k).desc (sendConfig k).buf] ++
      (if (wrapInt (cnt + 1)).tmod 1000 = 0 then
        [Event.fprintf .stdout (sendConfig k).periodic [wrapInt (cnt + 1)]] else []) ++
      (if wrapInt (cnt + 1) = 100000 then
        [Event.fprintf .stdout "gkhy_debug:cnt = %d\n" [wrapInt (cnt + 1)]] else []) := by
  simp only [sendIteration]
  split_ifs <;> simp

/-- The events of the pass entered with counter 99999. -/
theorem sendIteration_last_events (k : Fin 4) :
    (sendIteration k 99999).1 =
      [Event.usleep 4000,
       Event.dmaSend (sendConfig k).sendPrim (sendConfig k).desc (sendConfig k).buf,
       Event.fprintf .stdout (sendConfig k).periodic [100000],
       Event.fprintf .stdout "gkhy_debug:cnt = %d\n" [100000]] := by
  have hw : wrapInt (99999 + 1) = 100000 := by decide
  have ht : (100000 : Int).tmod 1000 = 0 := by decide
  rw [sendIteration_events, hw]
  simp only [ht, if_true]
  rfl

theorem send_periodic_text_distinct (k : Fin 4) :
    (sendConfig k).periodic ≠ "gkhy_debug:cnt = %d\n" := by
  fin_cases k <;> decide

/-- A pass that stays in the loop does not print the count line. -/
theorem sendIteration_no_countLog (k : Fin 4) (cnt : Int) (h0 : 0 ≤ cnt)
    (h1 : cnt + 1 < 100000) :
    (sendIteration k cnt).1.countP Event.isCountLog = 0 := by
  have hw : wrapInt (cnt + 1) = cnt + 1 := wrapInt_of_range _ (by omega) (by omega)
  have hne : cnt + 1 ≠ 100000 := by omega
  rw [sendIteration_events, hw]
  simp only [hne, if_false, List.append_nil]
  split_ifs
  · simp [List.countP_cons, Event.isCountLog, send_periodic_text_distinct k]
  · simp [List.countP_cons, Event.isCountLog]

/-- The count line over a run: printed once, as the last event, by the pass
that returns, and not before. -/
theorem sendRunFrom_countLog (k : Fin 4) (n : Nat) :
    ∀ (cnt : Int) (acc : List Event), 0 ≤ cnt → cnt < 100000 →
      (sendRunFrom k n cnt acc).1.countP Event.isCountLog
        = acc.countP Event.isCountLog + (if cnt + n < 100000 then 0 else 1) ∧
      (¬ cnt + n < 100000 →
        (sendRunFrom k n cnt acc).1.getLast?
          = some (Event.fprintf .stdout "gkhy_debug:cnt = %d\n" [100000])) := by
  induction n with
  | zero =>
    intro cnt acc h0 h1
    have hlt : cnt + ((0 : Nat) : Int) < 100000 := by simpa using h1
    simp only [sendRunFrom, List.countP_reverse, hlt, if_true, add_zero, not_true_eq_false,
      false_implies, and_self]
  | succ m ih =>
    intro cnt acc h0 h1
    by_cases hc : cnt + 1 < 100000
    · have hcont := sendIteration_continues k cnt h0 hc
      have hno := sendIteration_no_countLog k cnt h0 hc
      rcases hq : sendIteration k cnt with ⟨e, r⟩
      rw [hq] at hcont hno
      simp only at hcont hno
      subst hcont
      have hrec := ih (cnt + 1) (e.reverse ++ acc) (by omega) hc
      have e1 : cnt + 1 + (m : Int) = cnt + ((m + 1 : Nat) : Int) := by push_cast; ring
      rw [e1] at hrec
      simp only [sendRunFrom, hq]
      refine ⟨?_, hrec.2⟩
      rw [hrec.1, List.countP_append, List.countP_reverse, hno]
      omega
    · have h9 : cnt = 99999 := by omega
      subst h9
      have hret := sendIteration_returns k
      have hev := sendIteration_last_events k
      rcases hq : sendIteration k 99999 with ⟨e, r⟩
      rw [hq] at hret hev
      simp only at hret hev
      subst hret
      have hge : ¬ ((99999 : Int) + ((m + 1 : Nat) : Int) < 100000) := by push_cast; omega
      simp only [sendRunFrom, hq, List.reverse_append, List.reverse_reverse, hge, if_false,
        not_false_eq_true, true_implies]
      subst hev
      constructor
      · simp [List.countP_append, List.countP_cons, List.countP_reverse, Event.isCountLog,
          send_periodic_text_distinct k]
      · simp

/-- C9, amended: every pass of a transmit worker performs one transmission;
for every `n < 100000` the worker is still in its loop after `n` passes, with
counter `n`, and has not printed the count line; the pass entered with counter
99999 takes the branch `cnt == 100000`: after its transmission it prints the
periodic line and the line `gkhy_debug:cnt = 100000` and returns, so that after
100000 transmissions the worker has left its loop, the count line is the last
event of the run and is printed exactly once, and the number of transmissions
never exceeds 100000. -/
theorem send_worker_runs_100000_passes (k : Fin 4) (n : Nat) :
    (rapidio_taks_send k n).2 = (if n < 100000 then some (n : Int) else none) ∧
    sendCount (rapidio_taks_send k n).1 = min n 100000 ∧
    (∀ cnt, sendCount (sendIteration k cnt).1 = 1) ∧
    (sendIteration k 99999).2 = none ∧
    (sendIteration k 99999).1 =
      [Event.usleep 4000,
       Event.dmaSend (sendConfig k).sendPrim (sendConfig k).desc (sendConfig k).buf,
       Event.fprintf .stdout (sendConfig k).periodic [100000],
       Event.fprintf .stdout "gkhy_debug:cnt = %d\n" [100000]] ∧
    (∀ cnt, (sendIteration k cnt).1 =
      [Event.usleep 4000,
       Event.dmaSend (sendConfig k).sendPrim (sendConfig k).desc (sendConfig k).buf] ++
      (if (wrapInt (cnt + 1)).tmod 1000 = 0 then
        [Event.fprintf .stdout (sendConfig k).periodic [wrapInt (cnt + 1)]] else []) ++
      (if wrapInt (cnt + 1) = 100000 then
        [Event.fprintf .stdout "gkhy_debug:cnt = %d\n" [wrapInt (cnt + 1)]] else [])) ∧
    (rapidio_taks_send k n).1.countP Event.isCountLog = (if n < 100000 then 0 else 1) ∧
    (∀ m : Nat, (rapidio_taks_send k (100000 + m)).1.getLast?
      = some (Event.fprintf .stdout "gkhy_debug:cnt = %d\n" [100000])) := by
  have h := sendRunFrom_spec k n 0 [] (by decide) (by decide)
  have hl := sendRunFrom_countLog k n 0 [] (by decide) (by decide)
  refine ⟨?_, ?_, sendIteration_sends_once k, sendIteration_returns k,
    sendIteration_last_events k, sendIteration_events k, ?_, ?_⟩
  · rw [rapidio_taks_send, h.1]
    by_cases hn : n < 100000
    · have : (0 : Int) + (n : Int) < 100000 := by omega
      simp [hn, this]
    · have : ¬ ((0 : Int) + (n : Int) < 100000) := by omega
      simp [hn, this]
  · have h2 := h.2
    rw [rapidio_taks_send]
    have h0 : sendCount ([] : List Event) = 0 := rfl
    rw [h0, min_def] at h2
    rw [min_def]
    split_ifs at h2 ⊢ <;> omega
  · rw [rapidio_taks_send, hl.1]
    by_cases hn : n < 100000
    · have : (0 : Int) + (n : Int) < 100000 := by omega
      simp [hn, this]
    · have : ¬ ((0 : Int) + (n : Int) < 100000) := by omega
      simp [hn, this]
  · intro m
    have hm := sendRunFrom_countLog k (100000 + m) 0 [] (by decide) (by decide)
    rw [rapidio_taks_send]
    exact hm.2 (by push_cast; omega)

/-! ## Channel binding of the workers -/

/-- C10: transmit workers 0, 1, 2 call the send primitive of the channel pair
whose read primitive their receive worker calls (`jm`, `dx`, `dd`), each with
its own descriptor and send buffer; transmit worker 3 passes `trans3` and
`sbuffer3` to `rapidio_dd_send`, the primitive of channel pair 2, while receive
worker 3 reads with `rapidio_dj_read`. -/
theorem send3_uses_dd_primitive :
    (sendConfig 0).sendPrim = (recConfig 0).readPrim ∧
    (sendConfig 1).sendPrim = (recConfig 1).readPrim ∧
    (sendConfig 2).sendPrim = (recConfig 2).readPrim ∧
    (recConfig 0).readPrim = Prim.jm ∧ (recConfig 1).readPrim = Prim.dx ∧
    (recConfig 2).readPrim = Prim.dd ∧ (recConfig 3).readPrim = Prim.dj ∧
    (sendConfig 3).sendPrim = Prim.dd ∧
    (sendConfig 3).sendPrim ≠ (recConfig 3).readPrim ∧
    (sendConfig 3).sendPrim = (sendConfig 2).sendPrim ∧
    (sendIteration 3 0).1 = [Event.usleep 4000, Event.dmaSend Prim.dd 3 3] ∧
    (∀ k : Fin 4, (sendConfig k).desc = k ∧ (sendConfig k).buf = k) := by
  refine ⟨rfl, rfl, rfl, rfl, rfl, rfl, rfl, rfl, by decide, rfl, by decide, by decide⟩

/-! ## Return value of `GpioInit` -/

/-- The value the blocks of `GpioInit` return is decided by the `open` calls
on the value files alone. -/
theorem initStages_ret (env : SysEnv) (sts : List GpioStage) (fds : GpioFd → Int)
    (tr : List SysEvent) :
    (initStages env sts fds tr).1 =
      if ∃ st, st ∈ sts ∧ env.openFd .opValue st.pin < 0 then some (-1) else none := by
  induction sts generalizing fds tr with
  | nil => simp [initStages]
  | cons st rest ih =>
    by_cases h : env.openFd .opValue st.pin < 0
    · have hex : ∃ x, x ∈ st :: rest ∧ env.openFd .opValue x.pin < 0 :=
        ⟨st, List.mem_cons_self _ _, h⟩
      simp only [initStages, h, if_true, hex]
    · simp only [initStages, h, if_false, ih]
      by_cases hr : ∃ x, x ∈ rest ∧ env.openFd .opValue x.pin < 0
      · obtain ⟨x, hx, hlt⟩ := hr
        have hex : ∃ y, y ∈ st :: rest ∧ env.openFd .opValue y.pin < 0 :=
          ⟨x, List.mem_cons_of_mem _ hx, hlt⟩
        have hr2 : ∃ y, y ∈ rest ∧ env.openFd .opValue y.pin < 0 := ⟨x, hx, hlt⟩
        simp only [hex, hr2, if_true]
      · have hex : ¬ ∃ y, y ∈ st :: rest ∧ env.openFd .opValue y.pin < 0 := by
          rintro ⟨y, hy, hlt⟩
          rcases List.mem_cons.mp hy with e | e
          · subst e; exact h hlt
          · exact hr ⟨y, e, hlt⟩
        simp only [hex, hr, if_false]

theorem gpioStages_pins : gpioStages.map GpioStage.pin = gpioPins := by decide

/-- C11, as stated, fails: when opening the edge file of pin 960 fails (so that
`gpio_edge` returns -1) and every other operation succeeds, `GpioInit` does not
return the error value; it reaches the end of its body, which has no `return`
statement, as it does when every operation succeeds. -/
theorem gpio_init_ignores_edge_failure :
    edgeFailEnv.openFd .opEdge 960 < 0 ∧
    (gpio_edge edgeFailEnv 960 1).1 = -1 ∧
    (GpioInit edgeFailEnv).1 = none ∧
    (GpioInit edgeFailEnv).1 ≠ some (-1) ∧
    (GpioInit okEnv).1 = none := by
  refine ⟨by decide, by decide, ?_, ?_, ?_⟩
  · rw [GpioInit, initStages_ret]; decide
  · rw [GpioInit, initStages_ret]; decide
  · rw [GpioInit, initStages_ret]; decide

/-- Each helper returns -1 exactly when its `open` or its `write` fails, and
then logs one message: the one for the `open`, or the one for the `write`. -/
theorem helpers_log_failures (env : SysEnv) (pin dir edge : Int) :
    ((gpio_unexport env pin).1 =
        (if env.openFd .opUnexport pin < 0 ∨ env.writeRet .opUnexport pin < 0 then -1 else 0) ∧
      (gpio_unexport env pin).2.filter SysEvent.isMsg =
        (if env.openFd .opUnexport pin < 0 then
          [SysEvent.msg "Failed to open unexport for writing!\n"]
         else if env.writeRet .opUnexport pin < 0 then [SysEvent.msg "Failed to unexport gpio!"]
         else [])) ∧
    ((gpio_export env pin).1 =
        (if env.openFd .opExport pin < 0 ∨ env.writeRet .opExport pin < 0 then -1 else 0) ∧
      (gpio_export env pin).2.filter SysEvent.isMsg =
        (if env.openFd .opExport pin < 0 then
          [SysEvent.msg "Failed to open export for writing!\n"]
         else if env.writeRet .opExport pin < 0 then [SysEvent.msg "Failed to export gpio!"]
         else [])) ∧
    ((gpio_direction env pin dir).1 =
        (if env.openFd .opDirection pin < 0 ∨ env.writeRet .opDirection pin < 0 then -1 else 0) ∧
      (gpio_direction env pin dir).2.filter SysEvent.isMsg =
        (if env.openFd .opDirection pin < 0 then
          [SysEvent.msg "Failed to open gpio direction for writing!\n"]
         else if env.writeRet .opDirection pin < 0 then
          [SysEvent.msg "Failed to set direction!\n"]
         else [])) ∧
    ((gpio_edge env pin edge).1 =
        (if env.openFd .opEdge pin < 0 ∨ env.writeRet .opEdge pin < 0 then -1 else 0) ∧
      (gpio_edge env pin edge).2.filter SysEvent.isMsg =
        (if env.openFd .opEdge pin < 0 then
          [SysEvent.msg "Failed to open gpio edge for writing!\n"]
         else if env.writeRet .opEdge pin < 0 then [SysEvent.msg "Failed to set edge!\n"]
         else [])) := by
  refine ⟨⟨?_, ?_⟩, ⟨?_, ?_⟩, ⟨?_, ?_⟩, ⟨?_, ?_⟩⟩
  all_goals
    first
      | unfold gpio_unexport
      | unfold gpio_export
      | unfold gpio_direction
      | unfold gpio_edge
  all_goals
    split_ifs <;> simp_all [List.filter, SysEvent.isMsg] <;> omega

/-- The actions accumulated before a block of `GpioInit` stay in its trace. -/
theorem initStages_keeps (env : SysEnv) (sts : List GpioStage) (fds : GpioFd → Int)
    (tr : List SysEvent) (e : SysEvent) (he : e ∈ tr) :
    e ∈ (initStages env sts fds tr).2.2 := by
  induction sts generalizing fds tr with
  | nil => simpa [initStages] using he
  | cons st rest ih =>
    simp only [initStages]
    split_ifs
    · simp [he]
    · exact ih _ _ (by simp [he])

/-- When no `open` of a value file fails, the actions of every block are in
the trace. -/
theorem initStages_stage_events (env : SysEnv) (sts : List GpioStage) (fds : GpioFd → Int)
    (tr : List SysEvent) (hok : ∀ st, st ∈ sts → ¬ env.openFd .opValue st.pin < 0)
    (st : GpioStage) (hst : st ∈ sts) (e : SysEvent) (he : e ∈ stageEvents env st.pin) :
    e ∈ (initStages env sts fds tr).2.2 := by
  induction sts generalizing fds tr with
  | nil => cases hst
  | cons s rest ih =>
    have hs := hok s (List.mem_cons_self _ _)
    simp only [initStages, hs, if_false]
    rcases List.mem_cons.mp hst with h | h
    · subst h
      exact initStages_keeps env rest _ _ e (by simp [he])
    · exact ih _ _ (fun x hx => hok x (List.mem_cons_of_mem _ hx)) h

/-- When `GpioInit` fails, its last action is the message for the value file
whose `open` failed. -/
theorem initStages_fail_last (env : SysEnv) (sts : List GpioStage) (fds : GpioFd → Int)
    (tr : List SysEvent) (h : (initStages env sts fds tr).1 = some (-1)) :
    ∃ st, st ∈ sts ∧ env.openFd .opValue st.pin < 0 ∧
      (initStages env sts fds tr).2.2.getLast? = some (SysEvent.msg st.failText) := by
  induction sts generalizing fds tr with
  | nil => simp [initStages] at h
  | cons s rest ih =>
    by_cases hs : env.openFd .opValue s.pin < 0
    · refine ⟨s, List.mem_cons_self _ _, hs, ?_⟩
      simp only [initStages, hs, if_true]
      exact List.getLast?_concat _
    · simp only [initStages, hs, if_false] at h ⊢
      obtain ⟨st, hst, hlt, hlast⟩ := ih _ _ h
      exact ⟨st, List.mem_cons_of_mem _ hst, hlt, hlast⟩

theorem unexportAll_mem (env : SysEnv) (pins : List Int) (pin : Int) (hp : pin ∈ pins)
    (e : SysEvent) (he : e ∈ (gpio_unexport env pin).2) : e ∈ unexportAll env pins := by
  induction pins with
  | nil => cases hp
  | cons q rest ih =>
    simp only [unexportAll, List.mem_append]
    rcases List.mem_cons.mp hp with h | h
    · subst h; exact Or.inl he
    · exact Or.inr (ih h)

/-- The return value of `GpioInit` in terms of the value-file `open` calls. -/
theorem gpio_init_return_value (env : SysEnv) :
    ((GpioInit env).1 = some (-1) ↔
      ∃ pin, pin ∈ gpioPins ∧ env.openFd .opValue pin < 0) ∧
    ((GpioInit env).1 = none ↔
      ∀ pin, pin ∈ gpioPins → ¬ env.openFd .opValue pin < 0) := by
  have hiff : (∃ st, st ∈ gpioStages ∧ env.openFd .opValue st.pin < 0) ↔
      ∃ pin, pin ∈ gpioPins ∧ env.openFd .opValue pin < 0 := by
    rw [← gpioStages_pins]
    constructor
    · rintro ⟨st, hst, h⟩
      exact ⟨st.pin, List.mem_map.mpr ⟨st, hst, rfl⟩, h⟩
    · rintro ⟨pin, hp, h⟩
      obtain ⟨st, hst, e⟩ := List.mem_map.mp hp
      exact ⟨st, hst, by rw [e]; exact h⟩
  rw [GpioInit, initStages_ret]
  by_cases h : ∃ st, st ∈ gpioStages ∧ env.openFd .opValue st.pin < 0
  · have h2 := hiff.mp h
    simp only [h, if_true, true_iff]
    refine ⟨h2, ?_⟩
    constructor
    · intro hc; cases hc
    · intro hall
      obtain ⟨pin, hp, hlt⟩ := h2
      exact absurd hlt (hall pin hp)
  · have h2 : ¬ ∃ pin, pin ∈ gpioPins ∧ env.openFd .opValue pin < 0 := fun hc => h (hiff.mpr hc)
    simp only [h, if_false]
    refine ⟨?_, ?_⟩
    · constructor
      · intro hc; cases hc
      · intro hc; exact absurd hc h2
    · constructor
      · intro _ pin hp hlt; exact h2 ⟨pin, hp, hlt⟩
      · intro _; trivial

/-- C11, amended: `GpioInit` returns -1 exactly when one of the eight `open`
calls on a value file (pins 960..967) fails, whatever the outcomes of the
unexport, export, direction and edge operations are; when no such `open` fails
it runs through all eight blocks to the end of its body. Each helper
(`gpio_unexport`, `gpio_export`, `gpio_direction`, `gpio_edge`) returns -1
exactly when its `open` or `write` fails and then logs one message with `MSG`;
`GpioInit` discards these return values, and the helpers' actions, messages
included, are part of its actions: those of the eight `gpio_unexport` calls
always, those of the export, direction and edge calls of every pin when no
value `open` fails. When `GpioInit` fails, its last action is the message for
the value file whose `open` failed. -/
theorem gpio_init_fails_iff_value_open_fails (env : SysEnv) :
    ((GpioInit env).1 = some (-1) ↔
      ∃ pin, pin ∈ gpioPins ∧ env.openFd .opValue pin < 0) ∧
    ((GpioInit env).1 = none ↔
      ∀ pin, pin ∈ gpioPins → ¬ env.openFd .opValue pin < 0) ∧
    (∀ pin dir edge : Int,
      ((gpio_unexport env pin).1 =
          (if env.openFd .opUnexport pin < 0 ∨ env.writeRet .opUnexport pin < 0 then -1 else 0) ∧
        (gpio_unexport env pin).2.filter SysEvent.isMsg =
          (if env.openFd .opUnexport pin < 0 then
            [SysEvent.msg "Failed to open unexport for writing!\n"]
           else if env.writeRet .opUnexport pin < 0 then
            [SysEvent.msg "Failed to unexport gpio!"]
           else [])) ∧
      ((gpio_export env pin).1 =
          (if env.openFd .opExport pin < 0 ∨ env.writeRet .opExport pin < 0 then -1 else 0) ∧
        (gpio_export env pin).2.filter SysEvent.isMsg =
          (if env.openFd .opExport pin < 0 then
            [SysEvent.msg "Failed to open export for writing!\n"]
           else if env.writeRet .opExport pin < 0 then [SysEvent.msg "Failed to export gpio!"]
           else [])) ∧
      ((gpio_direction env pin dir).1 =
          (if env.openFd .opDirection pin < 0 ∨ env.writeRet .opDirection pin < 0
            then -1 else 0) ∧
        (gpio_direction env pin dir).2.filter SysEvent.isMsg =
          (if env.openFd .opDirection pin < 0 then
            [SysEvent.msg "Failed to open gpio direction for writing!\n"]
           else if env.writeRet .opDirection pin < 0 then
            [SysEvent.msg "Failed to set direction!\n"]
           else [])) ∧
      ((gpio_edge env pin edge).1 =
          (if env.openFd .opEdge pin < 0 ∨ env.writeRet .opEdge pin < 0 then -1 else 0) ∧
        (gpio_edge env pin edge).2.filter SysEvent.isMsg =
          (if env.openFd .opEdge pin < 0 then
            [SysEvent.msg "Failed to open gpio edge for writing!\n"]
           else if env.writeRet .opEdge pin < 0 then [SysEvent.msg "Failed to set edge!\n"]
           else []))) ∧
    (∀ pin, pin ∈ gpioPins → ∀ e, e ∈ (gpio_unexport env pin).2 → e ∈ (GpioInit env).2.2) ∧
    ((GpioInit env).1 = none → ∀ pin, pin ∈ gpioPins → ∀ e,
      (e ∈ (gpio_export env pin).2 ∨ e ∈ (gpio_direction env pin 0).2 ∨
        e ∈ (gpio_edge env pin 1).2) → e ∈ (GpioInit env).2.2) ∧
    ((GpioInit env).1 = some (-1) → ∃ st, st ∈ gpioStages ∧ env.openFd .opValue st.pin < 0 ∧
      (GpioInit env).2.2.getLast? = some (SysEvent.msg st.failText)) := by
  have hret : ((GpioInit env).1 = some (-1) ↔
        ∃ pin, pin ∈ gpioPins ∧ env.openFd .opValue pin < 0) ∧
      ((GpioInit env).1 = none ↔
        ∀ pin, pin ∈ gpioPins → ¬ env.openFd .opValue pin < 0) :=
    gpio_init_return_value env
  refine ⟨hret.1, hret.2, fun pin dir edge => helpers_log_failures env pin dir edge,
    ?_, ?_, ?_⟩
  · intro pin hp e he
    exact initStages_keeps env gpioStages _ _ e (unexportAll_mem env gpioPins pin hp e he)
  · intro hnone pin hp e he
    have hall := hret.2.mp hnone
    have hp2 : pin ∈ gpioStages.map GpioStage.pin := by rw [gpioStages_pins]; exact hp
    obtain ⟨st, hst, hpin⟩ := List.mem_map.mp hp2
    have hmem : ∀ x, x ∈ gpioStages → x.pin ∈ gpioPins := by
      intro x hx
      rw [← gpioStages_pins]
      exact List.mem_map.mpr ⟨x, hx, rfl⟩
    have hse : e ∈ stageEvents env st.pin := by
      rw [hpin]
      simp only [stageEvents, List.mem_append, List.mem_singleton]
      rcases he with h | h | h
      · exact Or.inl (Or.inl (Or.inl h))
      · exact Or.inl (Or.inl (Or.inr h))
      · exact Or.inl (Or.inr h)
    exact initStages_stage_events env gpioStages _ _
      (fun x hx => hall x.pin (hmem x hx)) st hst e hse
  · intro hfail
    exact initStages_fail_last env gpioStages _ _ hfail

/-! ## Actions of `GpioInit` when every operation succeeds -/

theorem gpio_unexport_events_of_ok (env : SysEnv) (pin : Int)
    (h1 : ¬ env.openFd .opUnexport pin < 0) (h2 : ¬ env.writeRet .opUnexport pin < 0) :
    (gpio_unexport env pin).2 = (gpio_unexport okEnv pin).2 := by
  simp [gpio_unexport, h1, h2, okEnv]

theorem stageEvents_of_ok (env : SysEnv) (pin : Int)
    (h1 : ∀ op, ¬ env.openFd op pin < 0) (h2 : ∀ op, ¬ env.writeRet op pin < 0) :
    stageEvents env pin = stageEvents okEnv pin := by
  simp [stageEvents, gpio_export, gpio_direction, gpio_edge, h1, h2, okEnv]

theorem unexportAll_of_ok (env : SysEnv) (pins : List Int)
    (h1 : ∀ op pin, pin ∈ pins → ¬ env.openFd op pin < 0)
    (h2 : ∀ op pin, pin ∈ pins → ¬ env.writeRet op pin < 0) :
    unexportAll env pins = unexportAll okEnv pins := by
  induction pins with
  | nil => rfl
  | cons p rest ih =>
    simp only [unexportAll]
    rw [gpio_unexport_events_of_ok env p (h1 _ p (List.mem_cons_self _ _))
        (h2 _ p (List.mem_cons_self _ _)),
      ih (fun op q hq => h1 op q (List.mem_cons_of_mem _ hq))
        (fun op q hq => h2 op q (List.mem_cons_of_mem _ hq))]

theorem initStages_trace_of_ok (env : SysEnv) (sts : List GpioStage)
    (h1 : ∀ op st, st ∈ sts → ¬ env.openFd op st.pin < 0)
    (h2 : ∀ op st, st ∈ sts → ¬ env.writeRet op st.pin < 0)
    (hok : ∀ st, st ∈ sts → ¬ okEnv.openFd .opValue st.pin < 0)
    (fds fds2 : GpioFd → Int) (tr : List SysEvent) :
    (initStages env sts fds tr).2.2 = (initStages okEnv sts fds2 tr).2.2 := by
  induction sts generalizing fds fds2 tr with
  | nil => rfl
  | cons st rest ih =>
    have ha := h1 .opValue st (List.mem_cons_self _ _)
    have hb := hok st (List.mem_cons_self _ _)
    have hs := stageEvents_of_ok env st.pin (fun op => h1 op st (List.mem_cons_self _ _))
      (fun op => h2 op st (List.mem_cons_self _ _))
    simp only [initStages, ha, hb, if_false, hs]
    exact ih (fun op x hx => h1 op x (List.mem_cons_of_mem _ hx))
      (fun op x hx => h2 op x (List.mem_cons_of_mem _ hx))
      (fun x hx => hok x (List.mem_cons_of_mem _ hx)) _ _ _

theorem initStages_fds_of_ok (env : SysEnv) (sts : List GpioStage)
    (h1 : ∀ st, st ∈ sts → ¬ env.openFd .opValue st.pin < 0)
    (fds : GpioFd → Int) (tr : List SysEvent) :
    (initStages env sts fds tr).2.1 =
      sts.foldl (fun g st => Function.update g st.fd (env.openFd .opValue st.pin)) fds := by
  induction sts generalizing fds tr with
  | nil => rfl
  | cons st rest ih =>
    have ha := h1 st (List.mem_cons_self _ _)
    simp only [initStages, ha, if_false, List.foldl_cons]
    exact ih (fun x hx => h1 x (List.mem_cons_of_mem _ hx)) _ _

theorem okEnv_open_ok (op : GpioOp) (pin : Int) (hp : pin ∈ gpioPins) :
    ¬ okEnv.openFd op pin < 0 := by
  simp only [gpioPins, List.mem_cons, List.mem_singleton, List.mem_nil_iff, or_false] at hp
  rcases hp with h | h | h | h | h | h | h | h <;> (subst h; cases op <;> decide)

theorem okEnv_write_ok (op : GpioOp) (pin : Int) (_hp : pin ∈ gpioPins) :
    ¬ okEnv.writeRet op pin < 0 := by
  simp [okEnv]

set_option maxRecDepth 20000 in
theorem pinSetup_sublist_ok (pin : Int) (hp : pin ∈ gpioPins) :
    List.Sublist (pinSetup pin) (GpioInit okEnv).2.2 := by
  simp only [gpioPins, List.mem_cons, List.mem_singleton, List.mem_nil_iff, or_false] at hp
  rcases hp with h | h | h | h | h | h | h | h <;> (subst h; decide)

/-- C15: when every sysfs operation on the pins 960..967 succeeds, the actions
of `GpioInit` contain, for each of these pins and in this relative order, the
pin number written to the unexport file, the pin number written to the export
file, `in` written to the pin's direction file, `rising` written to its edge
file, and its value file opened read-only; the descriptor returned by that
`open` is stored in the pin's global: 960 in `gpio_fd`, 961 in `gpio_fd1`, ...,
967 in `gpio_fd7`. -/
theorem gpio_init_sets_up_each_pin (env : SysEnv)
    (hopen : ∀ op pin, pin ∈ gpioPins → ¬ env.openFd op pin < 0)
    (hwrite : ∀ op pin, pin ∈ gpioPins → ¬ env.writeRet op pin < 0) :
    (∀ pin, pin ∈ gpioPins → List.Sublist (pinSetup pin) (GpioInit env).2.2) ∧
    (GpioInit env).2.1 .gpio_fd = env.openFd .opValue 960 ∧
    (GpioInit env).2.1 .gpio_fd1 = env.openFd .opValue 961 ∧
    (GpioInit env).2.1 .gpio_fd2 = env.openFd .opValue 962 ∧
    (GpioInit env).2.1 .gpio_fd3 = env.openFd .opValue 963 ∧
    (GpioInit env).2.1 .gpio_fd4 = env.openFd .opValue 964 ∧
    (GpioInit env).2.1 .gpio_fd5 = env.openFd .opValue 965 ∧
    (GpioInit env).2.1 .gpio_fd6 = env.openFd .opValue 966 ∧
    (GpioInit env).2.1 .gpio_fd7 = env.openFd .opValue 967 := by
  have hmem : ∀ st, st ∈ gpioStages → st.pin ∈ gpioPins := by
    intro st hst
    rw [← gpioStages_pins]
    exact List.mem_map.mpr ⟨st, hst, rfl⟩
  have htrace : (GpioInit env).2.2 = (GpioInit okEnv).2.2 := by
    unfold GpioInit
    rw [unexportAll_of_ok env gpioPins hopen hwrite]
    exact initStages_trace_of_ok env gpioStages
      (fun op st hst => hopen op st.pin (hmem st hst))
      (fun op st hst => hwrite op st.pin (hmem st hst))
      (fun st hst => okEnv_open_ok .opValue st.pin (hmem st hst)) _ _ _
  have hfds := initStages_fds_of_ok env gpioStages
    (fun st hst => hopen .opValue st.pin (hmem st hst)) (fun _ => 0) (unexportAll env gpioPins)
  refine ⟨?_, ?_⟩
  · intro pin hp
    rw [htrace]
    exact pinSetup_sublist_ok pin hp
  · unfold GpioInit
    rw [hfds]
    simp [gpioStages, List.foldl, Function.update]

theorem gpio_init_sets_up_each_pin_witness :
    ((∀ op pin, pin ∈ gpioPins → ¬ okEnv.openFd op pin < 0) ∧
     (∀ op pin, pin ∈ gpioPins → ¬ okEnv.writeRet op pin < 0)) ∧
    (∀ pin, pin ∈ gpioPins → List.Sublist (pinSetup pin) (GpioInit okEnv).2.2) ∧
    (GpioInit okEnv).2.1 .gpio_fd = okEnv.openFd .opValue 960 ∧
    (GpioInit okEnv).2.1 .gpio_fd1 = okEnv.openFd .opValue 961 ∧
    (GpioInit okEnv).2.1 .gpio_fd2 = okEnv.openFd .opValue 962 ∧
    (GpioInit okEnv).2.1 .gpio_fd3 = okEnv.openFd .opValue 963 ∧
    (GpioInit okEnv).2.1 .gpio_fd4 = okEnv.openFd .opValue 964 ∧
    (GpioInit okEnv).2.1 .gpio_fd5 = okEnv.openFd .opValue 965 ∧
    (GpioInit okEnv).2.1 .gpio_fd6 = okEnv.openFd .opValue 966 ∧
    (GpioInit okEnv).2.1 .gpio_fd7 = okEnv.openFd .opValue 967 :=
  ⟨⟨okEnv_open_ok, okEnv_write_ok⟩,
    gpio_init_sets_up_each_pin okEnv okEnv_open_ok okEnv_write_ok⟩

/-! ## The mode strings of `gpio_edge` -/

theorem edgeOffset_cases (edge : Int) :
    (edge = 1 ∧ edgeOffset edge = 5) ∨ (edge = 2 ∧ edgeOffset edge = 12) ∨
    (edge = 3 ∧ edgeOffset edge = 20) ∨
    (edge ≠ 1 ∧ edge ≠ 2 ∧ edge ≠ 3 ∧ edgeOffset edge = 0) := by
  by_cases h1 : edge = 1
  · left; subst h1; exact ⟨rfl, by decide⟩
  · by_cases h2 : edge = 2
    · right; left; subst h2; exact ⟨rfl, by decide⟩
    · by_cases h3 : edge = 3
      · right; right; left; subst h3; exact ⟨rfl, by decide⟩
      · right; right; right
        refine ⟨h1, h2, h3, ?_⟩
        unfold edgeOffset
        split_ifs <;> rfl

/-- C16: for every edge code `gpio_edge` writes exactly the bytes of the mode
word, without a `\0`: `rising` (6 bytes) for 1, `falling` (7 bytes) for 2,
`both` (4 bytes) for 3, and `none` (4 bytes) for 0 and for every other code;
the offsets 0, 5, 12 and 20 of the packed table each start one of the four
words, which ends at the next `\0`. When the `open` succeeds this is the only
`write` of the call, addressed to the pin's edge file. -/
theorem gpio_edge_writes_mode_word (env : SysEnv) (pin edge : Int) :
    edgeBytes edge =
      (if edge = 1 then "rising".toList else if edge = 2 then "falling".toList
       else if edge = 3 then "both".toList else "none".toList) ∧
    NUL ∉ edgeBytes edge ∧
    (edgeBytes 0).length = 4 ∧ (edgeBytes 1).length = 6 ∧
    (edgeBytes 2).length = 7 ∧ (edgeBytes 3).length = 4 ∧
    (edgeTable.drop 0).take 5 = "none".toList ++ [NUL] ∧
    (edgeTable.drop 5).take 7 = "rising".toList ++ [NUL] ∧
    (edgeTable.drop 12).take 8 = "falling".toList ++ [NUL] ∧
    (edgeTable.drop 20).take 5 = "both".toList ++ [NUL] ∧
    edgeTable.length = 25 ∧
    (gpio_edge env pin edge).2.filter SysEvent.isWrite =
      (if env.openFd .opEdge pin < 0 then []
       else [SysEvent.write (.edge pin) (.bytes (edgeBytes edge))]) := by
  have hbytes : edgeBytes edge =
      (if edge = 1 then "rising".toList else if edge = 2 then "falling".toList
       else if edge = 3 then "both".toList else "none".toList) := by
    unfold edgeBytes
    rcases edgeOffset_cases edge with ⟨h, ho⟩ | ⟨h, ho⟩ | ⟨h, ho⟩ | ⟨h1, h2, h3, ho⟩
    · rw [ho, h]; decide
    · rw [ho, h]; decide
    · rw [ho, h]; decide
    · rw [ho, if_neg h1, if_neg h2, if_neg h3]; decide
  refine ⟨hbytes, ?_, by decide, by decide, by decide, by decide, by decide, by decide,
    by decide, by decide, by decide, ?_⟩
  · rw [hbytes]
    split_ifs <;> decide
  · unfold gpio_edge
    by_cases ho : env.openFd .opEdge pin < 0
    · simp [ho, SysEvent.isWrite, List.filter]
    · by_cases hw : env.writeRet .opEdge pin < 0
      · simp [ho, hw, SysEvent.isWrite, List.filter]
      · simp [ho, hw, SysEvent.isWrite, List.filter]

/-! ## Bounds of the buffer accesses -/

theorem compareBody_trace_mem (k : Fin 4) (rb tb : Buffer) (m : Nat) (c : CmpState)
    (e : Event) (he : e ∈ (compareBody k rb tb m c).trace) :
    e ∈ c.trace ∨ e = Event.loadR (recConfig k).buf m ∨ e = Event.loadT m ∨
      ∃ fmt args, e = Event.fprintf .stdout fmt args := by
  unfold compareBody at he
  by_cases h : byteAt rb m = byteAt tb m
  · simp only [ne_eq, h, not_true_eq_false, if_false, List.mem_append, List.mem_cons,
      List.mem_singleton, List.mem_nil_iff, or_false] at he
    rcases he with h1 | h1 | h1
    · exact Or.inl h1
    · exact Or.inr (Or.inl h1)
    · exact Or.inr (Or.inr (Or.inl h1))
  · simp only [ne_eq, h, not_false_eq_true, if_true, List.mem_append, List.mem_cons,
      List.mem_singleton, List.mem_nil_iff, or_false] at he
    rcases he with (h1 | h1 | h1) | h1
    · exact Or.inl h1
    · exact Or.inr (Or.inl h1)
    · exact Or.inr (Or.inr (Or.inl h1))
    · right; right; right
      cases hm : (recConfig k).mismatch with
      | none => rw [hm] at h1; simp at h1
      | some fmt =>
        rw [hm] at h1
        simp only [List.mem_singleton] at h1
        exact ⟨_, _, h1⟩

/-- Every element read by the compare loop has an index below the loop bound. -/
theorem compareLoop_trace_bound (k : Fin 4) (rb tb : Buffer) (n : Nat) (c : CmpState)
    (e : Event) (he : e ∈ (forLoop n (compareBody k rb tb) c).trace) :
    e ∈ c.trace ∨ ∀ i, e.loadIndex? = some i → i < n := by
  induction n with
  | zero => left; simpa [forLoop_zero] using he
  | succ m ih =>
    rw [forLoop_succ] at he
    rcases compareBody_trace_mem k rb tb m _ e he with h | h | h | ⟨fmt, args, h⟩
    · rcases ih h with h1 | h1
      · exact Or.inl h1
      · right; intro i hi; have := h1 i hi; omega
    · right; intro i hi
      rw [h] at hi
      simp only [Event.loadIndex?, Option.some.injEq] at hi
      omega
    · right; intro i hi
      rw [h] at hi
      simp only [Event.loadIndex?, Option.some.injEq] at hi
      omega
    · right; intro i hi
      rw [h] at hi
      simp [Event.loadIndex?] at hi

theorem msgIfFailed_no_load (ret : Int) (text : String) (e : Event)
    (he : e ∈ msgIfFailed ret text) : e.loadIndex? = none := by
  unfold msgIfFailed at he
  split at he
  · simp only [List.mem_singleton] at he; subst he; rfl
  · simp at he

/-- C12: in every pass of every receive worker, whatever length the read
primitive reports (10240 included), every index at which the pass evaluates an
element of the receive buffer or of the pattern buffer is below `MAXLENGTH`,
the declared size of both arrays. -/
theorem receive_reads_in_bounds (k : Fin 4) (tb : Buffer) (st : RecState) (inp : RecInput)
    (e : Event) (i : Nat) (he : e ∈ (recIteration k tb st inp).2.1)
    (hi : e.loadIndex? = some i) : i < MAXLENGTH := by
  have hmsg := msgIfFailed_no_load
  unfold recIteration at he
  by_cases hp : inp.pollpri = true
  · by_cases hl : inp.rec_len > MAXLENGTH
    · simp only [hp, hl, if_true, List.mem_append, List.mem_cons, List.mem_singleton,
        List.mem_nil_iff, or_false] at he
      rcases he with ((((((h | h) | h) | h) | h) | h) | h) | h
      all_goals first
        | (rw [hmsg _ _ _ h] at hi; cases hi)
        | (rw [h] at hi; cases hi)
    · have hle : inp.rec_len ≤ MAXLENGTH := by omega
      have hcmp : ∀ x, x ∈ (compareLoop k inp.rbuffer tb inp.rec_len st.err_num).trace →
          x.loadIndex? = some i → i < MAXLENGTH := by
        intro x hx hxi
        rcases compareLoop_trace_bound k inp.rbuffer tb inp.rec_len _ x hx with h | h
        · simp at h
        · exact lt_of_lt_of_le (h i hxi) hle
      simp only [hp, hl, if_true, if_false] at he
      split_ifs at he
      all_goals
        simp only [List.mem_append, List.mem_cons, List.mem_singleton, List.mem_nil_iff,
          or_false, List.append_nil] at he
      all_goals casesm* _ ∨ _
      all_goals first
        | exact hcmp e (by assumption) hi
        | (have h := hmsg _ _ e (by assumption); rw [h] at hi; cases hi)
        | (subst e; simp [Event.loadIndex?] at hi)
  · simp only [hp, Bool.false_eq_true, if_false, List.mem_append, List.mem_cons,
      List.mem_singleton, List.mem_nil_iff, or_false] at he
    rcases he with (h | h) | h
    all_goals first
      | (rw [hmsg _ _ _ h] at hi; cases hi)
      | (rw [h] at hi; cases hi)

theorem receive_reads_in_bounds_witness :
    (Event.loadT 3 ∈ (recIteration 1 [0, 1, 2, 3] ⟨0, 5⟩ shortInput).2.1 ∧
      (Event.loadT 3).loadIndex? = some 3) ∧ 3 < MAXLENGTH :=
  ⟨⟨by decide, rfl⟩,
    receive_reads_in_bounds 1 [0, 1, 2, 3] ⟨0, 5⟩ shortInput (Event.loadT 3) 3 (by decide) rfl⟩

/-! ## The mismatch counter across passes -/

/-- C13: `err_num` is declared without an initial value, so the first compared
pass starts from whatever the variable holds. Started with 5, worker 0 logs
`err_num = 5` for a pass whose four received bytes all match the pattern and
`err_num = 7` for a pass with two differing bytes; only after a compared pass
is the counter 0, and the following pass logs its own two mismatches. -/
theorem err_num_starts_uninitialised :
    mismatches matchingInput.rbuffer [0, 1, 2, 3] matchingInput.rec_len = 0 ∧
    (recIteration 0 [0, 1, 2, 3] ⟨0, 5⟩ matchingInput).2.1.getLast?
      = some (Event.fprintf .stdout "gkhy_debug:err_num = %d\n" [5]) ∧
    mismatches shortInput.rbuffer [0, 1, 2, 3] shortInput.rec_len = 2 ∧
    (recIteration 0 [0, 1, 2, 3] ⟨0, 5⟩ shortInput).2.1.getLast?
      = some (Event.fprintf .stdout "gkhy_debug:err_num = %d\n" [7]) ∧
    (recIteration 0 [0, 1, 2, 3] ⟨0, 5⟩ matchingInput).1.err_num = 0 ∧
    (recIteration 0 [0, 1, 2, 3] (recIteration 0 [0, 1, 2, 3] ⟨0, 5⟩ matchingInput).1
        shortInput).2.1.getLast?
      = some (Event.fprintf .stdout "gkhy_debug:err_num = %d\n" [2]) := by
  refine ⟨by decide, by decide, by decide, by decide, by decide, by decide⟩

/-! ## The periodic line of a receive worker -/

theorem recIteration_cnt (k : Fin 4) (tb : Buffer) (st : RecState) (inp : RecInput) :
    (recIteration k tb st inp).1.cnt =
      if inp.pollpri = true then wrapInt (st.cnt + 1) else st.cnt := by
  simp only [recIteration]
  split_ifs <;> rfl

/-- Without overflow the static `cnt` is the number of passes that called the
read primitive. -/
theorem recRun_cnt (k : Fin 4) (tb : Buffer) (ins : List RecInput) :
    ∀ st : RecState, 0 ≤ st.cnt → st.cnt + (readCount ins : Int) < 2147483648 →
      (recRun k tb st ins).1.cnt = st.cnt + (readCount ins : Int) := by
  induction ins with
  | nil => intro st _ _; simp [recRun, readCount]
  | cons inp rest ih =>
    intro st h0 h1
    have hc := recIteration_cnt k tb st inp
    have hsplit : (readCount (inp :: rest) : Int)
        = (if inp.pollpri = true then 1 else 0) + (readCount rest : Int) := by
      simp only [readCount, List.countP_cons]
      split_ifs <;> push_cast <;> ring
    rw [hsplit] at h1 ⊢
    have hrest : (0 : Int) ≤ (readCount rest : Int) := Int.natCast_nonneg _
    by_cases hp : inp.pollpri = true
    · simp only [hp, if_true] at hc h1 ⊢
      have hw : wrapInt (st.cnt + 1) = st.cnt + 1 := wrapInt_of_range _ (by omega) (by omega)
      rw [hw] at hc
      simp only [recRun]
      rw [ih _ (by rw [hc]; omega) (by rw [hc]; omega), hc]
      ring
    · simp only [hp, Bool.false_eq_true, if_false] at hc h1 ⊢
      simp only [recRun]
      rw [ih _ (by rw [hc]; omega) (by rw [hc]; omega), hc]
      ring

theorem compareLoop_no_periodic (k : Fin 4) (rb tb : Buffer) (n : Nat) (c : CmpState) :
    logsPeriodic k (forLoop n (compareBody k rb tb) c).trace = logsPeriodic k c.trace := by
  induction n with
  | zero => simp [forLoop_zero]
  | succ m ih =>
    rw [forLoop_succ, ← ih]
    unfold compareBody logsPeriodic
    by_cases h : byteAt rb m = byteAt tb m
    · simp [h, Event.isPeriodic]
    · fin_cases k <;> simp [h, Event.isPeriodic, recConfig]

theorem periodic_text_distinct (k : Fin 4) :
    (recConfig k).lenError ≠ (recConfig k).periodic ∧
    "gkhy_debug:err_num = %d\n" ≠ (recConfig k).periodic ∧
    "poll nothing--------------------------\n" ≠ (recConfig k).periodic := by
  fin_cases k <;> decide

/-- The periodic line is printed exactly in the passes that are not skipped and
in which the incremented `cnt` is a multiple of 1000. -/
theorem recIteration_logsPeriodic (k : Fin 4) (tb : Buffer) (st : RecState) (inp : RecInput) :
    logsPeriodic k (recIteration k tb st inp).2.1 =
      (inp.pollpri && decide (inp.rec_len ≤ MAXLENGTH) &&
        decide ((wrapInt (st.cnt + 1)).tmod 1000 = 0)) := by
  have hcmp := compareLoop_no_periodic k inp.rbuffer tb inp.rec_len
    { err_num := st.err_num, trace := [] }
  have hcmp2 : logsPeriodic k (compareLoop k inp.rbuffer tb inp.rec_len st.err_num).trace
      = false := by
    rw [compareLoop, hcmp]; rfl
  unfold logsPeriodic at hcmp2 ⊢
  have hmsg : ∀ ret text, (msgIfFailed ret text).any (Event.isPeriodic k) = false := by
    intro ret text
    unfold msgIfFailed
    split_ifs <;> simp [Event.isPeriodic]
  have hstr := periodic_text_distinct k
  have hper : ∀ args, Event.isPeriodic k (Event.fprintf .stdout (recConfig k).periodic args)
      = true := by
    intro args; simp [Event.isPeriodic]
  have hlenE : Event.isPeriodic k (Event.fprintf .stdout (recConfig k).lenError []) = false := by
    simp [Event.isPeriodic, hstr.1]
  have herr : ∀ args, Event.isPeriodic k (Event.fprintf .stdout "gkhy_debug:err_num = %d\n" args)
      = false := by
    intro args; simp [Event.isPeriodic, hstr.2.1]
  have hnone : Event.isPeriodic k
      (Event.fprintf .stdout "poll nothing--------------------------\n" []) = false := by
    simp [Event.isPeriodic, hstr.2.2]
  have hpoll : ∀ fd, Event.isPeriodic k (Event.poll fd) = false := fun _ => rfl
  have hseek : ∀ fd, Event.isPeriodic k (Event.lseek fd) = false := fun _ => rfl
  have hread : ∀ fd, Event.isPeriodic k (Event.read fd) = false := fun _ => rfl
  have hdma : ∀ a b c, Event.isPeriodic k (Event.dmaRead a b c) = false := fun _ _ _ => rfl
  simp only [recIteration]
  by_cases hp : inp.pollpri = true
  · by_cases hl : inp.rec_len > MAXLENGTH
    · have hl2 : ¬ inp.rec_len ≤ MAXLENGTH := by omega
      simp [hp, hl, hl2, hmsg, List.any_append, hlenE, hpoll, hseek, hread, hdma]
    · have hl2 : inp.rec_len ≤ MAXLENGTH := by omega
      simp only [hp, hl, if_true, if_false]
      split_ifs <;>
        simp_all [hmsg, List.any_append, hper, herr, hpoll, hseek, hread, hdma] <;>
        exact ⟨hmsg _ _, hmsg _ _, hmsg _ _⟩
  · simp [hp, hmsg, List.any_append, hnone, hpoll]

theorem readCount_le_length (ins : List RecInput) : readCount ins ≤ ins.length :=
  List.countP_le_length _

theorem readCount_snoc (ins : List RecInput) (inp : RecInput) :
    readCount (ins ++ [inp]) = readCount ins + (if inp.pollpri = true then 1 else 0) := by
  simp [readCount, List.countP_append, List.countP_cons]

/-- The periodic line in terms of the passes made so far, the current one
included, as long as `cnt` has not overflowed. -/
theorem periodic_iff_readCount (k : Fin 4) (tb : Buffer) (e0 : Int) (ins : List RecInput)
    (inp : RecInput) (hlen : ins.length + 1 < 2147483648) :
    logsPeriodic k (recIteration k tb (recRun k tb ⟨0, e0⟩ ins).1 inp).2.1 = true ↔
      (inp.pollpri = true ∧ inp.rec_len ≤ MAXLENGTH ∧ readCount (ins ++ [inp]) % 1000 = 0) := by
  have hrc := readCount_le_length ins
  have hcnt := recRun_cnt k tb ins ⟨0, e0⟩ (le_refl _) (by simp only; omega)
  simp only [zero_add] at hcnt
  rw [recIteration_logsPeriodic, hcnt, readCount_snoc]
  have hw : wrapInt ((readCount ins : Int) + 1) = (readCount ins : Int) + 1 :=
    wrapInt_of_range _ (by omega) (by omega)
  rw [hw, Int.tmod_eq_emod (by omega) (by decide)]
  by_cases hp : inp.pollpri = true
  · simp only [hp, Bool.true_and, Bool.and_eq_true, decide_eq_true_eq, if_true, true_and]
    constructor
    · rintro ⟨h1, h2⟩; exact ⟨h1, by omega⟩
    · rintro ⟨h1, h2⟩; exact ⟨h1, by omega⟩
  · simp [hp]

theorem recIteration_path (k : Fin 4) (tb : Buffer) (st : RecState) (inp : RecInput) :
    (recIteration k tb st inp).2.2 = RecPath.compared ↔
      (inp.pollpri = true ∧ inp.rec_len ≤ MAXLENGTH) := by
  simp only [recIteration]
  by_cases hp : inp.pollpri = true
  · by_cases hl : inp.rec_len > MAXLENGTH
    · have hl2 : ¬ inp.rec_len ≤ MAXLENGTH := by omega
      simp [hp, hl, hl2]
    · have hl2 : inp.rec_len ≤ MAXLENGTH := by omega
      simp only [hp, hl, if_true, if_false, hl2, and_self, iff_true]
      split_ifs <;> rfl
  · simp [hp]

theorem readCount_replicate_oversize (n : Nat) :
    readCount (List.replicate n oversizeInput) = n := by
  rw [readCount, List.countP_replicate]
  rfl

theorem comparedCount_replicate_oversize (n : Nat) :
    comparedCount (List.replicate n oversizeInput) = 0 := by
  rw [comparedCount, List.countP_replicate]
  have h : (oversizeInput.pollpri && decide (oversizeInput.rec_len ≤ MAXLENGTH)) = false := by
    decide
  simp only [h, Bool.false_eq_true, if_false]

/-- C14, as stated, fails: after 999 passes skipped for an oversize length the
static `cnt` is 999, so the next pass, which is the first pass that is not
skipped, already prints the periodic line. -/
theorem periodic_line_counts_skipped_passes :
    (recIteration 0 zeroBuffer
      (recRun 0 zeroBuffer ⟨0, 0⟩ (List.replicate 999 oversizeInput)).1 shortInput).2.2
        = RecPath.compared ∧
    logsPeriodic 0 (recIteration 0 zeroBuffer
      (recRun 0 zeroBuffer ⟨0, 0⟩ (List.replicate 999 oversizeInput)).1 shortInput).2.1
        = true ∧
    comparedCount (List.replicate 999 oversizeInput ++ [shortInput]) = 1 ∧
    readCount (List.replicate 999 oversizeInput ++ [shortInput]) = 1000 := by
  have hr : readCount (List.replicate 999 oversizeInput ++ [shortInput]) = 1000 := by
    rw [readCount_snoc, readCount_replicate_oversize]
    rfl
  have hc : comparedCount (List.replicate 999 oversizeInput ++ [shortInput]) = 1 := by
    have h := comparedCount_replicate_oversize 999
    unfold comparedCount at h ⊢
    rw [List.countP_append, h]
    decide
  have hlen : (List.replicate 999 oversizeInput).length + 1 < 2147483648 := by
    rw [List.length_replicate]
    decide
  refine ⟨?_, ?_, hc, hr⟩
  · rw [recIteration_path]
    exact ⟨rfl, by decide⟩
  · rw [periodic_iff_readCount 0 zeroBuffer 0 _ shortInput hlen, hr]
    exact ⟨rfl, by decide, by decide⟩

/-- C14, amended: a receive worker prints its periodic line in a pass if and
only if that pass is not skipped and the number of passes so far in which the
read primitive was called, passes skipped for an oversize length included, is
a multiple of 1000 (for runs short enough that the `int` counter has not
overflowed). -/
theorem periodic_line_every_1000th_read (k : Fin 4) (tb : Buffer) (e0 : Int)
    (ins : List RecInput) (inp : RecInput) (hlen : ins.length + 1 < 2147483648) :
    (logsPeriodic k (recIteration k tb (recRun k tb ⟨0, e0⟩ ins).1 inp).2.1 = true ↔
      ((recIteration k tb (recRun k tb ⟨0, e0⟩ ins).1 inp).2.2 = RecPath.compared ∧
        readCount (ins ++ [inp]) % 1000 = 0)) ∧
    ((recIteration k tb (recRun k tb ⟨0, e0⟩ ins).1 inp).2.2 = RecPath.compared ↔
      (inp.pollpri = true ∧ inp.rec_len ≤ MAXLENGTH)) ∧
    (recRun k tb ⟨0, e0⟩ (ins ++ [inp])).1.cnt = (readCount (ins ++ [inp]) : Int) := by
  have hpath := recIteration_path k tb (recRun k tb ⟨0, e0⟩ ins).1 inp
  refine ⟨?_, hpath, ?_⟩
  · rw [periodic_iff_readCount k tb e0 ins inp hlen, hpath]
    tauto
  · have h := recRun_cnt k tb (ins ++ [inp]) ⟨0, e0⟩ (le_refl _)
      (by
        have := readCount_le_length (ins ++ [inp])
        simp only [List.length_append, List.length_singleton] at this
        simp only
        omega)
    simpa using h

theorem periodic_line_every_1000th_read_witness :
    ([oversizeInput].length + 1 < 2147483648) ∧
    (logsPeriodic 2 (recIteration 2 zeroBuffer
        (recRun 2 zeroBuffer ⟨0, 7⟩ [oversizeInput]).1 shortInput).2.1 = true ↔
      ((recIteration 2 zeroBuffer
          (recRun 2 zeroBuffer ⟨0, 7⟩ [oversizeInput]).1 shortInput).2.2 = RecPath.compared ∧
        readCount ([oversizeInput] ++ [shortInput]) % 1000 = 0)) ∧
    ((recIteration 2 zeroBuffer
        (recRun 2 zeroBuffer ⟨0, 7⟩ [oversizeInput]).1 shortInput).2.2 = RecPath.compared ↔
      (shortInput.pollpri = true ∧ shortInput.rec_len ≤ MAXLENGTH)) ∧
    (recRun 2 zeroBuffer ⟨0, 7⟩ ([oversizeInput] ++ [shortInput])).1.cnt
      = (readCount ([oversizeInput] ++ [shortInput]) : Int) :=
  ⟨by decide,
    periodic_line_every_1000th_read 2 zeroBuffer 7 [oversizeInput] shortInput (by decide)⟩

/-! ## The send buffers -/

theorem initT_sbuffers (n : Nat) (b : Buffers) (k : Fin 4) :
    (forLoop n initTBody b).sendBuffer k = b.sendBuffer k := by
  induction n with
  | zero => simp [forLoop_zero]
  | succ n ih =>
    rw [forLoop_succ, ← ih]
    fin_cases k <;> rfl

theorem initS_sbuffer_length (n : Nat) (b : Buffers) (k : Fin 4) :
    ((forLoop n initSBody b).sendBuffer k).length = (b.sendBuffer k).length := by
  induction n with
  | zero => simp [forLoop_zero]
  | succ n ih =>
    rw [forLoop_succ, ← ih]
    fin_cases k <;> simp [initSBody, Buffers.sendBuffer]

theorem initS_sbuffer (n : Nat) (b : Buffers) (k : Fin 4) (i : Nat) :
    ((forLoop n initSBody b).sendBuffer k)[i]? =
      if i < n ∧ i < (b.sendBuffer k).length then some (i % 256) else (b.sendBuffer k)[i]? := by
  induction n with
  | zero => simp [forLoop_zero]
  | succ n ih =>
    rw [forLoop_succ]
    have hlen := initS_sbuffer_length n b k
    have hstep : ((initSBody n (forLoop n initSBody b)).sendBuffer k)[i]? =
        (((forLoop n initSBody b).sendBuffer k).set n (n % 256))[i]? := by
      fin_cases k <;> simp [initSBody, Buffers.sendBuffer, toUChar_natCast]
    rw [hstep, List.getElem?_set, hlen, ih]
    by_cases h1 : n = i
    · subst h1
      by_cases h2 : n < (b.sendBuffer k).length
      · simp [h2]
      · have : (b.sendBuffer k)[n]? = none := by
          apply List.getElem?_eq_none; omega
        simp [h2, this]
    · have e : (i < n + 1 ∧ i < (b.sendBuffer k).length) ↔
          (i < n ∧ i < (b.sendBuffer k).length) := by
        constructor
        · rintro ⟨a, c⟩; exact ⟨by omega, c⟩
        · rintro ⟨a, c⟩; exact ⟨by omega, c⟩
      simp only [h1, if_false, e]

/-- After the initialisation loops every element of every send buffer below
`MAXLENGTH` is the pattern byte inside the prefix of `TESTLENGTH` bytes and 0
outside it. -/
theorem sendBuffer_init (k : Fin 4) (i : Nat) (hi : i < MAXLENGTH) :
    ((initBuffers staticBuffers).sendBuffer k)[i]? =
      some (if i < TESTLENGTH then i % 256 else 0) := by
  unfold initBuffers
  rw [initS_sbuffer, initT_sbuffers]
  have hl : (staticBuffers.sendBuffer k).length = MAXLENGTH := by
    fin_cases k <;> simp [staticBuffers, zeroBuffer, Buffers.sendBuffer]
  have hz : (staticBuffers.sendBuffer k)[i]? = some 0 := by
    have hi2 : i < List.length (List.replicate MAXLENGTH 0) := by simpa using hi
    fin_cases k <;>
      simp only [staticBuffers, zeroBuffer, Buffers.sendBuffer] <;>
      rw [List.getElem?_eq_getElem hi2] <;> simp
  rw [hl, hz]
  by_cases h : i < TESTLENGTH
  · simp [h, hi]
  · simp [h]

theorem pattern_init (i : Nat) (hi : i < MAXLENGTH) :
    (initBuffers staticBuffers).tbuffer[i]? = some (i % 256) := by
  unfold initBuffers
  rw [initS_tbuffer, initT_tbuffer]
  have hl : staticBuffers.tbuffer.length = MAXLENGTH := by
    simp [staticBuffers, zeroBuffer]
  simp [hl, hi]

theorem byteAt_of_getElem? (b : Buffer) (i v : Nat) (h : b[i]? = some v) : byteAt b i = v := by
  simp [byteAt, List.getD_eq_getElem?_getD, h]

theorem compareLoop_unchanged (k : Fin 4) (rb tb : Buffer) (n : Nat) (c : CmpState)
    (h : ∀ i, i < n → byteAt rb i = byteAt tb i) :
    (forLoop n (compareBody k rb tb) c).err_num = c.err_num := by
  induction n with
  | zero => simp [forLoop_zero]
  | succ m ih =>
    rw [forLoop_succ]
    have hm := h m (by omega)
    simp only [compareBody, ne_eq, hm, not_true_eq_false, if_false]
    exact ih (fun i hi => h i (by omega))

/-- C17: after the initialisation in `main`, for every channel `k` and every
`i < TESTLENGTH` the send buffer and the pattern buffer both hold `i mod 256`
at index `i`, and for `TESTLENGTH <= i < MAXLENGTH` the send buffer holds 0;
hence a receive buffer that equals the send buffer on its first
`rec_len <= TESTLENGTH` bytes has no mismatch with the pattern, and the
compare loop of any receive worker leaves `err_num` as it was. -/
theorem send_buffers_match_pattern_prefix (k j : Fin 4) (i : Nat) (hi : i < MAXLENGTH)
    (rb : Buffer) (rec_len : Nat) (err_num : Int) (hlen : rec_len ≤ TESTLENGTH)
    (heq : ∀ m, m < rec_len → byteAt rb m = byteAt ((initBuffers staticBuffers).sendBuffer k) m) :
    (i < TESTLENGTH →
      ((initBuffers staticBuffers).sendBuffer k)[i]? = some (i % 256) ∧
      (initBuffers staticBuffers).tbuffer[i]? = some (i % 256)) ∧
    (TESTLENGTH ≤ i → ((initBuffers staticBuffers).sendBuffer k)[i]? = some 0) ∧
    mismatches rb (initBuffers staticBuffers).tbuffer rec_len = 0 ∧
    (compareLoop j rb (initBuffers staticBuffers).tbuffer rec_len err_num).err_num = err_num := by
  have hs := sendBuffer_init k i hi
  have hall : ∀ m, m < rec_len → byteAt rb m = byteAt (initBuffers staticBuffers).tbuffer m := by
    intro m hm
    have hT : TESTLENGTH = 8192 := rfl
    have hM : MAXLENGTH = 10240 := rfl
    have hm2 : m < MAXLENGTH := by omega
    have h1 := sendBuffer_init k m hm2
    have hlt : m < TESTLENGTH := by omega
    simp only [hlt, if_true] at h1
    rw [heq m hm, byteAt_of_getElem? _ _ _ h1, byteAt_of_getElem? _ _ _ (pattern_init m hm2)]
  refine ⟨?_, ?_, (mismatches_eq_zero_iff _ _ _).mpr hall, ?_⟩
  · intro h
    simp only [h, if_true] at hs
    exact ⟨hs, pattern_init i hi⟩
  · intro h
    have h2 : ¬ i < TESTLENGTH := by omega
    simpa only [h2, if_false] using hs
  · exact compareLoop_unchanged j _ _ _ _ hall

theorem send_buffers_match_pattern_prefix_witness :
    (300 < MAXLENGTH ∧ 8192 ≤ TESTLENGTH ∧
      ∀ m, m < 8192 → byteAt ((initBuffers staticBuffers).sendBuffer 2) m
        = byteAt ((initBuffers staticBuffers).sendBuffer 2) m) ∧
    (300 < TESTLENGTH →
      ((initBuffers staticBuffers).sendBuffer 2)[300]? = some (300 % 256) ∧
      (initBuffers staticBuffers).tbuffer[300]? = some (300 % 256)) ∧
    (TESTLENGTH ≤ 300 → ((initBuffers staticBuffers).sendBuffer 2)[300]? = some 0) ∧
    mismatches ((initBuffers staticBuffers).sendBuffer 2)
      (initBuffers staticBuffers).tbuffer 8192 = 0 ∧
    (compareLoop 1 ((initBuffers staticBuffers).sendBuffer 2)
      (initBuffers staticBuffers).tbuffer 8192 0).err_num = 0 :=
  ⟨⟨by decide, by decide, fun _ _ => rfl⟩,
    send_buffers_match_pattern_prefix 2 1 300 (by decide)
      ((initBuffers staticBuffers).sendBuffer 2) 8192 0 (by decide) (fun _ _ => rfl)⟩

/-! ## Independence of the workers from the command line -/

/-- The worker descriptors `main` leaves behind when the command line is
accepted and the driver initialises with non-empty channel lists: they are
built from the driver's allocations and the two size constants only. -/
theorem main_worker_descriptors (env : Driver) (opts : List Opt) (optind argc : Int)
    (hacc : (parse_args opts optind argc).2 = ParseEnd.ret 0)
    (hinit : env.init_ok = true) (htx : env.tx_chans ≠ []) (hrx : env.rx_chans ≠ [])
    (k : Fin 4) :
    (main env opts optind argc).globals.worker k =
      (allocPair env (2 * k.val)
        { DmaTransfer.zero with output_size := (MAXLENGTH : Int),
                                input_size := (TESTLENGTH : Int) }).1 := by
  obtain ⟨a, ta, hta⟩ := List.exists_cons_of_ne_nil htx
  obtain ⟨b, tb, htb⟩ := List.exists_cons_of_ne_nil hrx
  have h1 : ¬ ((ta.length : Int) + 1 < 1) := by omega
  have h2 : ¬ ((tb.length : Int) + 1 < 1) := by omega
  simp only [main, hacc, mainAfterParse, hinit, hta, htb]
  simp only [lt_self_iff_false, if_false, Bool.not_true, Bool.false_eq_true, List.length_cons,
    Nat.cast_add, Nat.cast_one, h1, h2]
  split_ifs <;> fin_cases k <;> rfl

theorem workersStarted_worker (g : Globals) (k : Fin 4) :
    (workersStarted g).worker k = setChannels k (g.worker k) := by
  fin_cases k <;> rfl

theorem compareLoop_no_descriptor (k : Fin 4) (rb tb : Buffer) (n : Nat) (c : CmpState) :
    (forLoop n (compareBody k rb tb) c).trace.filterMap Event.descriptor?
      = c.trace.filterMap Event.descriptor? := by
  induction n with
  | zero => simp [forLoop_zero]
  | succ m ih =>
    rw [forLoop_succ, ← ih]
    unfold compareBody
    by_cases h : byteAt rb m = byteAt tb m
    · simp [h, Event.descriptor?, List.filterMap_append]
    · cases hm : (recConfig k).mismatch <;>
        simp [h, hm, Event.descriptor?, List.filterMap_append]

theorem sendIteration_descriptor (k : Fin 4) (cnt : Int) :
    (sendIteration k cnt).1.filterMap Event.descriptor? = [k] := by
  have hd : (sendConfig k).desc = k := by fin_cases k <;> rfl
  simp only [sendIteration]
  split_ifs <;> simp [Event.descriptor?, List.filterMap_append, List.filterMap_cons, hd]

theorem recIteration_descriptor (k : Fin 4) (tb : Buffer) (st : RecState) (inp : RecInput) :
    (recIteration k tb st inp).2.1.filterMap Event.descriptor?
      = if inp.pollpri = true then [k] else [] := by
  have hd : (recConfig k).desc = k := by fin_cases k <;> rfl
  have hcmp : (compareLoop k inp.rbuffer tb inp.rec_len st.err_num).trace.filterMap
      Event.descriptor? = [] := by
    rw [compareLoop, compareLoop_no_descriptor]; rfl
  have hmsg : ∀ ret text, (msgIfFailed ret text).filterMap Event.descriptor? = [] := by
    intro ret text
    unfold msgIfFailed
    split_ifs <;> simp [Event.descriptor?]
  simp only [recIteration]
  split_ifs <;>
    simp [List.filterMap_append, List.filterMap_cons, hmsg, hcmp, hd, Event.descriptor?]

/-- C18: the descriptors the workers use do not depend on the command line. For
two accepted argument vectors and the same answers of the driver (which
initialises and reports non-empty channel lists), once the receive workers have
started the descriptor of every channel `k` is the same in both runs, with
`input_channel = 2k` and `output_channel = 2k + 1`, that is (0,1), (2,3), (4,5),
(6,7), `input_size = 8192` and `output_size = 10240`; and every read or send
primitive call of the workers of channel `k` is given descriptor `transK`,
never the parsed descriptor `trans`. -/
theorem workers_ignore_command_line (env : Driver) (opts1 opts2 : List Opt)
    (optind1 argc1 optind2 argc2 : Int) (k : Fin 4)
    (hacc1 : (parse_args opts1 optind1 argc1).2 = ParseEnd.ret 0)
    (hacc2 : (parse_args opts2 optind2 argc2).2 = ParseEnd.ret 0)
    (hinit : env.init_ok = true) (htx : env.tx_chans ≠ []) (hrx : env.rx_chans ≠ []) :
    (workersStarted (main env opts1 optind1 argc1).globals).worker k
      = (workersStarted (main env opts2 optind2 argc2).globals).worker k ∧
    ((workersStarted (main env opts1 optind1 argc1).globals).worker k).input_channel
      = 2 * (k.val : Int) ∧
    ((workersStarted (main env opts1 optind1 argc1).globals).worker k).output_channel
      = 2 * (k.val : Int) + 1 ∧
    ((workersStarted (main env opts1 optind1 argc1).globals).worker k).input_size = 8192 ∧
    ((workersStarted (main env opts1 optind1 argc1).globals).worker k).output_size = 10240 ∧
    (∀ cnt, (sendIteration k cnt).1.filterMap Event.descriptor? = [k]) ∧
    (∀ tb st inp, (recIteration k tb st inp).2.1.filterMap Event.descriptor?
      = if inp.pollpri = true then [k] else []) := by
  have h1 := main_worker_descriptors env opts1 optind1 argc1 hacc1 hinit htx hrx k
  have h2 := main_worker_descriptors env opts2 optind2 argc2 hacc2 hinit htx hrx k
  rw [workersStarted_worker, workersStarted_worker, h1, h2]
  refine ⟨rfl, ?_, ?_, ?_, ?_, sendIteration_descriptor k, recIteration_descriptor k⟩
  · fin_cases k <;> rfl
  · fin_cases k <;> rfl
  · simp [setChannels, allocPair, TESTLENGTH]
  · simp [setChannels, allocPair, MAXLENGTH]

theorem workers_ignore_command_line_witness :
    ((parse_args [Opt.t 0 6, Opt.r 0 7, Opt.s 0 4096] 7 7).2 = ParseEnd.ret 0 ∧
     (parse_args [] 1 1).2 = ParseEnd.ret 0 ∧
     sortedDriver.init_ok = true ∧ sortedDriver.tx_chans ≠ [] ∧ sortedDriver.rx_chans ≠ []) ∧
    (workersStarted (main sortedDriver [Opt.t 0 6, Opt.r 0 7, Opt.s 0 4096] 7 7).globals).worker 2
      = (workersStarted (main sortedDriver [] 1 1).globals).worker 2 ∧
    ((workersStarted
        (main sortedDriver [Opt.t 0 6, Opt.r 0 7, Opt.s 0 4096] 7 7).globals).worker
          2).input_channel = 2 * (((2 : Fin 4).val : Nat) : Int) ∧
    ((workersStarted
        (main sortedDriver [Opt.t 0 6, Opt.r 0 7, Opt.s 0 4096] 7 7).globals).worker
          2).output_channel = 2 * (((2 : Fin 4).val : Nat) : Int) + 1 ∧
    ((workersStarted
        (main sortedDriver [Opt.t 0 6, Opt.r 0 7, Opt.s 0 4096] 7 7).globals).worker
          2).input_size = 8192 ∧
    ((workersStarted
        (main sortedDriver [Opt.t 0 6, Opt.r 0 7, Opt.s 0 4096] 7 7).globals).worker
          2).output_size = 10240 ∧
    (∀ cnt, (sendIteration 2 cnt).1.filterMap Event.descriptor? = [2]) ∧
    (∀ tb st inp, (recIteration 2 tb st inp).2.1.filterMap Event.descriptor?
      = if inp.pollpri = true then [2] else []) :=
  ⟨⟨by decide, by decide, rfl, by decide, by decide⟩,
    workers_ignore_command_line sortedDriver [Opt.t 0 6, Opt.r 0 7, Opt.s 0 4096] []
      7 7 1 1 2 (by decide) (by decide) rfl (by decide) (by decide)⟩

end Demo
